import Mathlib

/-
Verification development for the geoarrow columnar geometry array core:
the geometry data model, the WKB and WKT codecs, the downcast classifier,
the GeoArrow type descriptor and its Arrow-field encoding, and the
CRS-extraction helpers of the Python bindings.
-/

namespace GeoArrow

/-- Coordinate dimensions supported by the geometry model. -/
inductive Dim where
  | xy | xyz | xym | xyzm
deriving DecidableEq

/-- Number of floating-point values in one coordinate of this dimension. -/
def Dim.size : Dim → Nat
  | .xy => 2
  | .xyz => 3
  | .xym => 3
  | .xyzm => 4

/-- ISO WKB encodes the dimension as a multiple-of-1000 offset added to the
geometry-kind code. -/
def Dim.wkbOffset : Dim → Nat
  | .xy => 0
  | .xyz => 1000
  | .xym => 2000
  | .xyzm => 3000

/-- Decode the thousands digit of an ISO WKB geometry-type code back to a
dimension. -/
def dimOfWkbCode : Nat → Option Dim
  | 0 => some .xy
  | 1 => some .xyz
  | 2 => some .xym
  | 3 => some .xyzm
  | _ => none

/-! ### Little-endian byte serialization of 32- and 64-bit words

Coordinates are IEEE-754 doubles; the codec reads and writes their 8-byte
representations verbatim, so we model a coordinate value as the natural
number below 2^64 holding its bit pattern. -/

/-- Serialize a 32-bit word as four little-endian bytes. -/
def serU32 (n : Nat) : List Nat :=
  [n % 256, n / 256 % 256, n / 65536 % 256, n / 16777216 % 256]

/-- Serialize a 64-bit word as eight little-endian bytes. -/
def serU64 (n : Nat) : List Nat :=
  [n % 256, n / 2 ^ 8 % 256, n / 2 ^ 16 % 256, n / 2 ^ 24 % 256,
   n / 2 ^ 32 % 256, n / 2 ^ 40 % 256, n / 2 ^ 48 % 256, n / 2 ^ 56 % 256]

/-- Assemble bytes, least significant first. -/
def assembleLE (bs : List Nat) : Nat :=
  bs.foldr (fun b acc => b + 256 * acc) 0

/-- Read a 32-bit word from the head of a byte stream; the flag selects
big-endian order. -/
def parseU32 (bigEndian : Bool) : List Nat → Option (Nat × List Nat)
  | b0 :: b1 :: b2 :: b3 :: rest =>
    some ((if bigEndian then assembleLE [b3, b2, b1, b0]
           else assembleLE [b0, b1, b2, b3]), rest)
  | _ => none

/-- Read a 64-bit word from the head of a byte stream; the flag selects
big-endian order. -/
def parseU64 (bigEndian : Bool) : List Nat → Option (Nat × List Nat)
  | b0 :: b1 :: b2 :: b3 :: b4 :: b5 :: b6 :: b7 :: rest =>
    some ((if bigEndian then assembleLE [b7, b6, b5, b4, b3, b2, b1, b0]
           else assembleLE [b0, b1, b2, b3, b4, b5, b6, b7]), rest)
  | _ => none

theorem parseU32_serU32 (n : Nat) (h : n < 2 ^ 32) (r : List Nat) :
    parseU32 false (serU32 n ++ r) = some (n, r) := by
  simp only [serU32, List.cons_append, List.nil_append, parseU32, assembleLE,
    List.foldr, if_false, Bool.false_eq_true, Option.some.injEq, Prod.mk.injEq]
  exact ⟨by omega, trivial⟩

theorem parseU64_serU64 (n : Nat) (h : n < 2 ^ 64) (r : List Nat) :
    parseU64 false (serU64 n ++ r) = some (n, r) := by
  simp only [serU64, List.cons_append, List.nil_append, parseU64, assembleLE,
    List.foldr, if_false, Bool.false_eq_true, Option.some.injEq, Prod.mk.injEq]
  exact ⟨by omega, trivial⟩

/-! ### Geometry data model

Modelled from the spec: the seven concrete geometry kinds of §3/§4, with a
coordinate represented as a list of per-dimension values.  The coordinate
value type is a parameter: for WKB it is the 64-bit IEEE bit pattern (a
natural number below 2^64), for WKT it is the verbatim numeric token. -/

mutual
inductive Geometry (α : Type) where
  | point (d : Dim) (c : List α)
  | linestring (d : Dim) (cs : List (List α))
  | polygon (d : Dim) (rs : List (List (List α)))
  | multipoint (d : Dim) (ps : List (List α))
  | multilinestring (d : Dim) (ls : List (List (List α)))
  | multipolygon (d : Dim) (pp : List (List (List (List α))))
  | geometrycollection (d : Dim) (gs : GeomList α)
inductive GeomList (α : Type) where
  | nil
  | cons (g : Geometry α) (tl : GeomList α)
end

/-- Number of geometries in a collection's child list. -/
def GeomList.length {α : Type} : GeomList α → Nat
  | .nil => 0
  | .cons _ tl => 1 + tl.length

/-- The dimension tag carried by a geometry. -/
def Geometry.dim {α : Type} : Geometry α → Dim
  | .point d _ => d
  | .linestring d _ => d
  | .polygon d _ => d
  | .multipoint d _ => d
  | .multilinestring d _ => d
  | .multipolygon d _ => d
  | .geometrycollection d _ => d

/-! ### WKB codec

Modelled from the spec (§4.4, the Rust codec itself is not in the visible
source tree): each geometry is serialized as a byte-order byte, a uint32
geometry-type code equal to the kind code (1..7) plus the ISO dimension
offset, then nested counts and raw 8-byte coordinate values.  The
serializer emits little-endian ISO WKB; the parser accepts both byte
orders. -/

/-- One WKB geometry header: little-endian marker plus type code. -/
def wkbHeader (k : Nat) (d : Dim) : List Nat :=
  1 :: serU32 (k + d.wkbOffset)

/-- Serialize one coordinate as consecutive 8-byte values. -/
def serCoord (c : List Nat) : List Nat :=
  (c.map serU64).flatten

/-- Serialize a counted coordinate sequence (a linestring body or one
polygon ring). -/
def serCoordSeq (cs : List (List Nat)) : List Nat :=
  serU32 cs.length ++ (cs.map serCoord).flatten

/-- Serialize a counted ring sequence (a polygon body). -/
def serRings (rs : List (List (List Nat))) : List Nat :=
  serU32 rs.length ++ (rs.map serCoordSeq).flatten

mutual
def wkbSerGeom : Geometry Nat → List Nat
  | .point d c => wkbHeader 1 d ++ serCoord c
  | .linestring d cs => wkbHeader 2 d ++ serCoordSeq cs
  | .polygon d rs => wkbHeader 3 d ++ serRings rs
  | .multipoint d ps =>
      wkbHeader 4 d ++ serU32 ps.length ++
        (ps.map (fun c => wkbHeader 1 d ++ serCoord c)).flatten
  | .multilinestring d ls =>
      wkbHeader 5 d ++ serU32 ls.length ++
        (ls.map (fun cs => wkbHeader 2 d ++ serCoordSeq cs)).flatten
  | .multipolygon d pp =>
      wkbHeader 6 d ++ serU32 pp.length ++
        (pp.map (fun rs => wkbHeader 3 d ++ serRings rs)).flatten
  | .geometrycollection d gs =>
      wkbHeader 7 d ++ serU32 gs.length ++ wkbSerGeomList gs
def wkbSerGeomList : GeomList Nat → List Nat
  | .nil => []
  | .cons g tl => wkbSerGeom g ++ wkbSerGeomList tl
end

/-- A coordinate the WKB codec can serialize: the right number of values
for its dimension, each a 64-bit pattern. -/
def coordWF (d : Dim) (c : List Nat) : Bool :=
  c.length = d.size && c.all (fun v => v < 2 ^ 64)

/-- A serializable coordinate sequence: count fits in a uint32. -/
def coordSeqWF (d : Dim) (cs : List (List Nat)) : Bool :=
  cs.length < 2 ^ 32 && cs.all (coordWF d)

/-- A serializable ring sequence. -/
def ringsWF (d : Dim) (rs : List (List (List Nat))) : Bool :=
  rs.length < 2 ^ 32 && rs.all (coordSeqWF d)

mutual
def wkbGeomWF : Geometry Nat → Bool
  | .point d c => coordWF d c
  | .linestring d cs => coordSeqWF d cs
  | .polygon d rs => ringsWF d rs
  | .multipoint d ps => coordSeqWF d ps
  | .multilinestring d ls => ringsWF d ls
  | .multipolygon d pp => (pp.length < 2 ^ 32 : Bool) && pp.all (ringsWF d)
  | .geometrycollection _ gs => (gs.length < 2 ^ 32 : Bool) && wkbGeomListWF gs
def wkbGeomListWF : GeomList Nat → Bool
  | .nil => true
  | .cons g tl => wkbGeomWF g && wkbGeomListWF tl
end

/-- Read the byte-order marker: 0 selects big-endian, 1 little-endian. -/
def parseByteOrder : List Nat → Option (Bool × List Nat)
  | 0 :: rest => some (true, rest)
  | 1 :: rest => some (false, rest)
  | _ => none

/-- Read a fixed number of 8-byte coordinate values. -/
def parseNCoordVals (e : Bool) : Nat → List Nat → Option (List Nat × List Nat)
  | 0, bs => some ([], bs)
  | n + 1, bs =>
    match parseU64 e bs with
    | none => none
    | some (v, bs1) =>
      match parseNCoordVals e n bs1 with
      | none => none
      | some (vs, bs2) => some (v :: vs, bs2)

/-- Read one coordinate of the given dimension. -/
def parseCoord (e : Bool) (d : Dim) (bs : List Nat) :
    Option (List Nat × List Nat) :=
  parseNCoordVals e d.size bs

/-- Read a fixed number of coordinates. -/
def parseNCoords (e : Bool) (d : Dim) :
    Nat → List Nat → Option (List (List Nat) × List Nat)
  | 0, bs => some ([], bs)
  | n + 1, bs =>
    match parseCoord e d bs with
    | none => none
    | some (c, bs1) =>
      match parseNCoords e d n bs1 with
      | none => none
      | some (cs, bs2) => some (c :: cs, bs2)

/-- Read a counted coordinate sequence. -/
def parseCoordSeq (e : Bool) (d : Dim) (bs : List Nat) :
    Option (List (List Nat) × List Nat) :=
  match parseU32 e bs with
  | none => none
  | some (n, bs1) => parseNCoords e d n bs1

/-- Read a fixed number of counted coordinate sequences. -/
def parseNCoordSeqs (e : Bool) (d : Dim) :
    Nat → List Nat → Option (List (List (List Nat)) × List Nat)
  | 0, bs => some ([], bs)
  | n + 1, bs =>
    match parseCoordSeq e d bs with
    | none => none
    | some (cs, bs1) =>
      match parseNCoordSeqs e d n bs1 with
      | none => none
      | some (rs, bs2) => some (cs :: rs, bs2)

/-- Read a counted ring sequence (a polygon body). -/
def parseRings (e : Bool) (d : Dim) (bs : List Nat) :
    Option (List (List (List Nat)) × List Nat) :=
  match parseU32 e bs with
  | none => none
  | some (n, bs1) => parseNCoordSeqs e d n bs1

/-- Read a nested WKB geometry header, requiring the expected kind code and
the parent's dimension. -/
def parseWkbHeader (k : Nat) (d : Dim) (bs : List Nat) :
    Option (Bool × List Nat) :=
  match parseByteOrder bs with
  | none => none
  | some (e, bs1) =>
    match parseU32 e bs1 with
    | none => none
    | some (code, bs2) =>
      if code = k + d.wkbOffset then some (e, bs2) else none

/-- Read a fixed number of full WKB point geometries (multipoint children). -/
def parseNPointGeoms (d : Dim) :
    Nat → List Nat → Option (List (List Nat) × List Nat)
  | 0, bs => some ([], bs)
  | n + 1, bs =>
    match parseWkbHeader 1 d bs with
    | none => none
    | some (e, bs1) =>
      match parseCoord e d bs1 with
      | none => none
      | some (c, bs2) =>
        match parseNPointGeoms d n bs2 with
        | none => none
        | some (cs, bs3) => some (c :: cs, bs3)

/-- Read a fixed number of full WKB linestring geometries. -/
def parseNLineStringGeoms (d : Dim) :
    Nat → List Nat → Option (List (List (List Nat)) × List Nat)
  | 0, bs => some ([], bs)
  | n + 1, bs =>
    match parseWkbHeader 2 d bs with
    | none => none
    | some (e, bs1) =>
      match parseCoordSeq e d bs1 with
      | none => none
      | some (cs, bs2) =>
        match parseNLineStringGeoms d n bs2 with
        | none => none
        | some (ls, bs3) => some (cs :: ls, bs3)

/-- Read a fixed number of full WKB polygon geometries. -/
def parseNPolygonGeoms (d : Dim) :
    Nat → List Nat → Option (List (List (List (List Nat))) × List Nat)
  | 0, bs => some ([], bs)
  | n + 1, bs =>
    match parseWkbHeader 3 d bs with
    | none => none
    | some (e, bs1) =>
      match parseRings e d bs1 with
      | none => none
      | some (rs, bs2) =>
        match parseNPolygonGeoms d n bs2 with
        | none => none
        | some (pp, bs3) => some (rs :: pp, bs3)

mutual
def parseWkbGeom : Nat → List Nat → Option (Geometry Nat × List Nat)
  | 0, _ => none
  | fuel + 1, bs =>
    match parseByteOrder bs with
    | none => none
    | some (e, bs1) =>
      match parseU32 e bs1 with
      | none => none
      | some (code, bs2) =>
        match dimOfWkbCode (code / 1000) with
        | none => none
        | some d =>
          match code % 1000 with
          | 1 => (parseCoord e d bs2).map (fun p => (.point d p.1, p.2))
          | 2 => (parseCoordSeq e d bs2).map (fun p => (.linestring d p.1, p.2))
          | 3 => (parseRings e d bs2).map (fun p => (.polygon d p.1, p.2))
          | 4 =>
            match parseU32 e bs2 with
            | none => none
            | some (n, bs3) =>
              (parseNPointGeoms d n bs3).map (fun p => (.multipoint d p.1, p.2))
          | 5 =>
            match parseU32 e bs2 with
            | none => none
            | some (n, bs3) =>
              (parseNLineStringGeoms d n bs3).map
                (fun p => (.multilinestring d p.1, p.2))
          | 6 =>
            match parseU32 e bs2 with
            | none => none
            | some (n, bs3) =>
              (parseNPolygonGeoms d n bs3).map
                (fun p => (.multipolygon d p.1, p.2))
          | 7 =>
            match parseU32 e bs2 with
            | none => none
            | some (n, bs3) =>
              match parseWkbGeomList fuel n bs3 with
              | none => none
              | some (gs, bs4) => some (.geometrycollection d gs, bs4)
          | _ => none
def parseWkbGeomList : Nat → Nat → List Nat → Option (GeomList Nat × List Nat)
  | _, 0, bs => some (.nil, bs)
  | 0, _ + 1, _ => none
  | fuel + 1, n + 1, bs =>
    match parseWkbGeom fuel bs with
    | none => none
    | some (g, bs1) =>
      match parseWkbGeomList fuel n bs1 with
      | none => none
      | some (tl, bs2) => some (.cons g tl, bs2)
end

/- Fuel sufficient to parse a serialized geometry: one unit per level of
collection nesting plus one per collection element. -/
mutual
def geomFuel {α : Type} : Geometry α → Nat
  | .geometrycollection _ gs => 1 + geomListFuel gs
  | _ => 1
def geomListFuel {α : Type} : GeomList α → Nat
  | .nil => 0
  | .cons g tl => 1 + max (geomFuel g) (geomListFuel tl)
end

/-! ### WKB round-trip lemmas -/

theorem parseNCoordVals_ser (c : List Nat) (hc : ∀ v ∈ c, v < 2 ^ 64)
    (r : List Nat) :
    parseNCoordVals false c.length (serCoord c ++ r) = some (c, r) := by
  induction c with
  | nil => simp [serCoord, parseNCoordVals]
  | cons v vs ih =>
    have h1 := parseU64_serU64 v (hc v (by simp)) (serCoord vs ++ r)
    have h2 := ih (fun w hw => hc w (by simp [hw]))
    simp only [serCoord, List.map_cons, List.flatten_cons, List.length_cons,
      List.append_assoc, parseNCoordVals]
    simp only [serCoord] at h1 h2
    simp [h1, h2]

theorem parseCoord_ser (d : Dim) (c : List Nat) (h : coordWF d c = true)
    (r : List Nat) :
    parseCoord false d (serCoord c ++ r) = some (c, r) := by
  simp only [coordWF, Bool.and_eq_true, decide_eq_true_eq, List.all_eq_true] at h
  rw [parseCoord, ← h.1]
  exact parseNCoordVals_ser c h.2 r

theorem parseNCoords_ser (d : Dim) (cs : List (List Nat))
    (h : ∀ c ∈ cs, coordWF d c = true) (r : List Nat) :
    parseNCoords false d cs.length ((cs.map serCoord).flatten ++ r) =
      some (cs, r) := by
  induction cs with
  | nil => simp [parseNCoords]
  | cons c cs ih =>
    have h1 := parseCoord_ser d c (h c (by simp)) ((cs.map serCoord).flatten ++ r)
    have h2 := ih (fun w hw => h w (by simp [hw]))
    simp only [List.map_cons, List.flatten_cons, List.length_cons,
      List.append_assoc, parseNCoords]
    simp [h1, h2]

theorem parseCoordSeq_ser (d : Dim) (cs : List (List Nat))
    (h : coordSeqWF d cs = true) (r : List Nat) :
    parseCoordSeq false d (serCoordSeq cs ++ r) = some (cs, r) := by
  simp only [coordSeqWF, Bool.and_eq_true, decide_eq_true_eq,
    List.all_eq_true] at h
  simp only [serCoordSeq, List.append_assoc, parseCoordSeq]
  rw [parseU32_serU32 _ h.1]
  exact parseNCoords_ser d cs h.2 r

theorem parseNCoordSeqs_ser (d : Dim) (rs : List (List (List Nat)))
    (h : ∀ cs ∈ rs, coordSeqWF d cs = true) (r : List Nat) :
    parseNCoordSeqs false d rs.length ((rs.map serCoordSeq).flatten ++ r) =
      some (rs, r) := by
  induction rs with
  | nil => simp [parseNCoordSeqs]
  | cons cs rs ih =>
    have h1 := parseCoordSeq_ser d cs (h cs (by simp))
      ((rs.map serCoordSeq).flatten ++ r)
    have h2 := ih (fun w hw => h w (by simp [hw]))
    simp only [serCoordSeq, List.append_assoc] at h1
    simp only [List.map_cons, List.flatten_cons, List.length_cons,
      List.append_assoc, parseNCoordSeqs, serCoordSeq]
    simp [h1, h2]

theorem parseRings_ser (d : Dim) (rs : List (List (List Nat)))
    (h : ringsWF d rs = true) (r : List Nat) :
    parseRings false d (serRings rs ++ r) = some (rs, r) := by
  simp only [ringsWF, Bool.and_eq_true, decide_eq_true_eq,
    List.all_eq_true] at h
  simp only [serRings, List.append_assoc, parseRings]
  rw [parseU32_serU32 _ h.1]
  exact parseNCoordSeqs_ser d rs h.2 r

theorem wkbCode_decode (k : Nat) (hk1 : 1 ≤ k) (hk7 : k ≤ 7) (d : Dim) :
    dimOfWkbCode ((k + d.wkbOffset) / 1000) = some d ∧
      (k + d.wkbOffset) % 1000 = k ∧ k + d.wkbOffset < 2 ^ 32 := by
  cases d
  · rw [show (k + Dim.wkbOffset .xy) / 1000 = 0 by simp [Dim.wkbOffset]; omega]
    exact ⟨rfl, by simp [Dim.wkbOffset]; omega, by simp [Dim.wkbOffset]; omega⟩
  · rw [show (k + Dim.wkbOffset .xyz) / 1000 = 1 by simp [Dim.wkbOffset]; omega]
    exact ⟨rfl, by simp [Dim.wkbOffset]; omega, by simp [Dim.wkbOffset]; omega⟩
  · rw [show (k + Dim.wkbOffset .xym) / 1000 = 2 by simp [Dim.wkbOffset]; omega]
    exact ⟨rfl, by simp [Dim.wkbOffset]; omega, by simp [Dim.wkbOffset]; omega⟩
  · rw [show (k + Dim.wkbOffset .xyzm) / 1000 = 3 by simp [Dim.wkbOffset]; omega]
    exact ⟨rfl, by simp [Dim.wkbOffset]; omega, by simp [Dim.wkbOffset]; omega⟩

theorem parseWkbHeader_ser (k : Nat) (hk1 : 1 ≤ k) (hk7 : k ≤ 7) (d : Dim)
    (r : List Nat) :
    parseWkbHeader k d (wkbHeader k d ++ r) = some (false, r) := by
  have h32 := (wkbCode_decode k hk1 hk7 d).2.2
  simp only [wkbHeader, List.cons_append, List.append_assoc, parseWkbHeader,
    parseByteOrder]
  rw [parseU32_serU32 _ h32]
  simp

theorem parseNPointGeoms_ser (d : Dim) (ps : List (List Nat))
    (h : ∀ c ∈ ps, coordWF d c = true) (r : List Nat) :
    parseNPointGeoms d ps.length
      ((ps.map (fun c => wkbHeader 1 d ++ serCoord c)).flatten ++ r) =
      some (ps, r) := by
  induction ps with
  | nil => simp [parseNPointGeoms]
  | cons c ps ih =>
    have h0 := parseWkbHeader_ser 1 (by omega) (by omega) d
      (serCoord c ++ ((ps.map (fun c => wkbHeader 1 d ++ serCoord c)).flatten ++ r))
    have h1 := parseCoord_ser d c (h c (by simp))
      ((ps.map (fun c => wkbHeader 1 d ++ serCoord c)).flatten ++ r)
    have h2 := ih (fun w hw => h w (by simp [hw]))
    simp only [List.map_cons, List.flatten_cons, List.length_cons,
      List.append_assoc, parseNPointGeoms]
    simp [h0, h1, h2]

theorem parseNLineStringGeoms_ser (d : Dim) (ls : List (List (List Nat)))
    (h : ∀ cs ∈ ls, coordSeqWF d cs = true) (r : List Nat) :
    parseNLineStringGeoms d ls.length
      ((ls.map (fun cs => wkbHeader 2 d ++ serCoordSeq cs)).flatten ++ r) =
      some (ls, r) := by
  induction ls with
  | nil => simp [parseNLineStringGeoms]
  | cons cs ls ih =>
    have h0 := parseWkbHeader_ser 2 (by omega) (by omega) d
      (serCoordSeq cs ++
        ((ls.map (fun cs => wkbHeader 2 d ++ serCoordSeq cs)).flatten ++ r))
    have h1 := parseCoordSeq_ser d cs (h cs (by simp))
      ((ls.map (fun cs => wkbHeader 2 d ++ serCoordSeq cs)).flatten ++ r)
    have h2 := ih (fun w hw => h w (by simp [hw]))
    simp only [List.map_cons, List.flatten_cons, List.length_cons,
      List.append_assoc, parseNLineStringGeoms]
    simp [h0, h1, h2]

theorem parseNPolygonGeoms_ser (d : Dim) (pp : List (List (List (List Nat))))
    (h : ∀ rs ∈ pp, ringsWF d rs = true) (r : List Nat) :
    parseNPolygonGeoms d pp.length
      ((pp.map (fun rs => wkbHeader 3 d ++ serRings rs)).flatten ++ r) =
      some (pp, r) := by
  induction pp with
  | nil => simp [parseNPolygonGeoms]
  | cons rs pp ih =>
    have h0 := parseWkbHeader_ser 3 (by omega) (by omega) d
      (serRings rs ++
        ((pp.map (fun rs => wkbHeader 3 d ++ serRings rs)).flatten ++ r))
    have h1 := parseRings_ser d rs (h rs (by simp))
      ((pp.map (fun rs => wkbHeader 3 d ++ serRings rs)).flatten ++ r)
    have h2 := ih (fun w hw => h w (by simp [hw]))
    simp only [List.map_cons, List.flatten_cons, List.length_cons,
      List.append_assoc, parseNPolygonGeoms]
    simp [h0, h1, h2]

theorem wkb_roundtrip_main (fuel : Nat) :
    (∀ g : Geometry Nat, wkbGeomWF g = true → geomFuel g ≤ fuel →
      ∀ r : List Nat, parseWkbGeom fuel (wkbSerGeom g ++ r) = some (g, r)) ∧
    (∀ gs : GeomList Nat, wkbGeomListWF gs = true → geomListFuel gs ≤ fuel →
      ∀ r : List Nat,
        parseWkbGeomList fuel gs.length (wkbSerGeomList gs ++ r) =
          some (gs, r)) := by
  induction fuel with
  | zero =>
    constructor
    · intro g hwf hfuel r
      exact absurd hfuel (by cases g <;> simp [geomFuel])
    · intro gs hwf hfuel r
      cases gs with
      | nil => simp [GeomList.length, wkbSerGeomList, parseWkbGeomList]
      | cons g tl =>
        exact absurd hfuel (by simp only [geomListFuel]; omega)
  | succ f ih =>
    constructor
    · intro g hwf hfuel r
      cases g with
      | point d c =>
        have hcode := wkbCode_decode 1 (by omega) (by omega) d
        have h1 := parseCoord_ser d c (by simpa [wkbGeomWF] using hwf) r
        simp only [wkbSerGeom, wkbHeader, List.cons_append, List.append_assoc,
          parseWkbGeom, parseByteOrder]
        rw [parseU32_serU32 _ hcode.2.2]
        simp [hcode.1, hcode.2.1, h1]
      | linestring d cs =>
        have hcode := wkbCode_decode 2 (by omega) (by omega) d
        have h1 := parseCoordSeq_ser d cs (by simpa [wkbGeomWF] using hwf) r
        simp only [serCoordSeq, List.append_assoc] at h1
        simp only [wkbSerGeom, wkbHeader, serCoordSeq, List.cons_append,
          List.append_assoc, parseWkbGeom, parseByteOrder]
        rw [parseU32_serU32 _ hcode.2.2]
        simp [hcode.1, hcode.2.1, h1]
      | polygon d rs =>
        have hcode := wkbCode_decode 3 (by omega) (by omega) d
        have h1 := parseRings_ser d rs (by simpa [wkbGeomWF] using hwf) r
        simp only [serRings, List.append_assoc] at h1
        simp only [wkbSerGeom, wkbHeader, serRings, List.cons_append,
          List.append_assoc, parseWkbGeom, parseByteOrder]
        rw [parseU32_serU32 _ hcode.2.2]
        simp [hcode.1, hcode.2.1, h1]
      | multipoint d ps =>
        have hcode := wkbCode_decode 4 (by omega) (by omega) d
        have hwf2 : ps.length < 2 ^ 32 ∧ ∀ c ∈ ps, coordWF d c = true := by
          simpa [wkbGeomWF, coordSeqWF, List.all_eq_true] using hwf
        have h1 := parseNPointGeoms_ser d ps hwf2.2 r
        simp only [wkbHeader, List.cons_append, List.append_assoc] at h1
        simp only [wkbSerGeom, wkbHeader, List.cons_append, List.append_assoc,
          parseWkbGeom, parseByteOrder]
        rw [parseU32_serU32 _ hcode.2.2]
        simp only [hcode.1, hcode.2.1]
        rw [parseU32_serU32 _ hwf2.1]
        simp [h1]
      | multilinestring d ls =>
        have hcode := wkbCode_decode 5 (by omega) (by omega) d
        have hwf2 : ls.length < 2 ^ 32 ∧ ∀ cs ∈ ls, coordSeqWF d cs = true := by
          simpa [wkbGeomWF, ringsWF, List.all_eq_true] using hwf
        have h1 := parseNLineStringGeoms_ser d ls hwf2.2 r
        simp only [wkbHeader, List.cons_append, List.append_assoc] at h1
        simp only [wkbSerGeom, wkbHeader, List.cons_append, List.append_assoc,
          parseWkbGeom, parseByteOrder]
        rw [parseU32_serU32 _ hcode.2.2]
        simp only [hcode.1, hcode.2.1]
        rw [parseU32_serU32 _ hwf2.1]
        simp [h1]
      | multipolygon d pp =>
        have hcode := wkbCode_decode 6 (by omega) (by omega) d
        have hwf2 : pp.length < 2 ^ 32 ∧ ∀ rs ∈ pp, ringsWF d rs = true := by
          simpa [wkbGeomWF, List.all_eq_true] using hwf
        have h1 := parseNPolygonGeoms_ser d pp hwf2.2 r
        simp only [wkbHeader, List.cons_append, List.append_assoc] at h1
        simp only [wkbSerGeom, wkbHeader, List.cons_append, List.append_assoc,
          parseWkbGeom, parseByteOrder]
        rw [parseU32_serU32 _ hcode.2.2]
        simp only [hcode.1, hcode.2.1]
        rw [parseU32_serU32 _ hwf2.1]
        simp [h1]
      | geometrycollection d gs =>
        have hcode := wkbCode_decode 7 (by omega) (by omega) d
        have hwf2 : gs.length < 2 ^ 32 ∧ wkbGeomListWF gs = true := by
          simpa [wkbGeomWF] using hwf
        have hfl : geomListFuel gs ≤ f := by
          simp only [geomFuel] at hfuel; omega
        have h1 := ih.2 gs hwf2.2 hfl r
        simp only [wkbSerGeom, wkbHeader, List.cons_append, List.append_assoc,
          parseWkbGeom, parseByteOrder]
        rw [parseU32_serU32 _ hcode.2.2]
        simp only [hcode.1, hcode.2.1]
        rw [parseU32_serU32 _ hwf2.1]
        simp [h1]
    · intro gs hwf hfuel r
      cases gs with
      | nil => simp [GeomList.length, wkbSerGeomList, parseWkbGeomList]
      | cons g tl =>
        have hwf2 : wkbGeomWF g = true ∧ wkbGeomListWF tl = true := by
          simpa [wkbGeomListWF] using hwf
        have hf1 : geomFuel g ≤ f := by
          simp only [geomListFuel] at hfuel; omega
        have hf2 : geomListFuel tl ≤ f := by
          simp only [geomListFuel] at hfuel; omega
        have h1 := ih.1 g hwf2.1 hf1 (wkbSerGeomList tl ++ r)
        have h2 := ih.2 tl hwf2.2 hf2 r
        simp only [GeomList.length, wkbSerGeomList, List.append_assoc]
        rw [Nat.add_comm 1 tl.length]
        simp only [parseWkbGeomList]
        simp [h1, h2]

mutual
theorem geomFuel_le_ser (g : Geometry Nat) :
    geomFuel g + 1 ≤ (wkbSerGeom g).length := by
  cases g with
  | point d c =>
    simp [wkbSerGeom, geomFuel, wkbHeader, serU32]
  | linestring d cs =>
    simp [wkbSerGeom, geomFuel, wkbHeader, serU32, serCoordSeq]
  | polygon d rs =>
    simp [wkbSerGeom, geomFuel, wkbHeader, serU32, serRings]
  | multipoint d ps =>
    simp [wkbSerGeom, geomFuel, wkbHeader, serU32]
  | multilinestring d ls =>
    simp [wkbSerGeom, geomFuel, wkbHeader, serU32]
  | multipolygon d pp =>
    simp [wkbSerGeom, geomFuel, wkbHeader, serU32]
  | geometrycollection d gs =>
    have h := geomListFuel_le_ser gs
    simp [wkbSerGeom, geomFuel, wkbHeader, serU32]
    omega
theorem geomListFuel_le_ser (gs : GeomList Nat) :
    geomListFuel gs ≤ (wkbSerGeomList gs).length + 1 := by
  cases gs with
  | nil => simp [geomListFuel, wkbSerGeomList]
  | cons g tl =>
    have h1 := geomFuel_le_ser g
    have h2 := geomListFuel_le_ser tl
    simp only [geomListFuel, wkbSerGeomList, List.length_append]
    omega
end

/-- Parse one WKB byte string as one geometry, requiring the whole buffer
to be consumed. -/
def parseWkbElement (bs : List Nat) : Option (Geometry Nat) :=
  match parseWkbGeom (bs.length + 1) bs with
  | some (g, []) => some g
  | _ => none

/-- Serialize a geometry array to per-element WKB buffers (to_wkb). -/
def toWkbArr (xs : List (Geometry Nat)) : List (List Nat) :=
  xs.map wkbSerGeom

/-- Parse per-element WKB buffers back to a geometry array (from_wkb);
a single malformed element fails the whole call. -/
def fromWkbArr : List (List Nat) → Option (List (Geometry Nat))
  | [] => some []
  | bs :: bss =>
    match parseWkbElement bs with
    | none => none
    | some g =>
      match fromWkbArr bss with
      | none => none
      | some gs => some (g :: gs)

theorem parseWkbElement_ser (g : Geometry Nat) (hwf : wkbGeomWF g = true) :
    parseWkbElement (wkbSerGeom g) = some g := by
  have hfuel : geomFuel g ≤ (wkbSerGeom g).length + 1 := by
    have := geomFuel_le_ser g; omega
  have h := (wkb_roundtrip_main ((wkbSerGeom g).length + 1)).1 g hwf hfuel []
  rw [List.append_nil] at h
  simp [parseWkbElement, h]

theorem fromWkbArr_toWkbArr (xs : List (Geometry Nat))
    (hwf : ∀ g ∈ xs, wkbGeomWF g = true) :
    fromWkbArr (toWkbArr xs) = some xs := by
  induction xs with
  | nil => simp [fromWkbArr, toWkbArr]
  | cons g xs ih =>
    have h1 := parseWkbElement_ser g (hwf g (by simp))
    have h2 := ih (fun w hw => hwf w (by simp [hw]))
    simp only [toWkbArr, List.map_cons] at h2 ⊢
    simp only [fromWkbArr]
    simp [h1, h2]

/-- Claim C1: for every geometry array in the seven concrete kinds with
dimension XY or XYZ that the WKB codec can serialize, parsing the
serialization back (from_wkb of to_wkb) yields a structurally equal array,
where structure is the decoded coordinate sequences. -/
theorem wkb_round_trip (xs : List (Geometry Nat))
    (hwf : ∀ g ∈ xs, wkbGeomWF g = true)
    (_hdim : ∀ g ∈ xs, g.dim = .xy ∨ g.dim = .xyz) :
    fromWkbArr (toWkbArr xs) = some xs :=
  fromWkbArr_toWkbArr xs hwf

/-- Witness for C1 at a concrete two-element XY/XYZ array containing a
point and a geometry collection. -/
theorem wkb_round_trip_witness :
    (∀ g ∈ ([Geometry.point .xy [1, 2],
       Geometry.geometrycollection .xyz
         (.cons (.linestring .xyz [[1, 2, 3], [4, 5, 6]]) .nil)] :
        List (Geometry Nat)), wkbGeomWF g = true) ∧
    (∀ g ∈ ([Geometry.point .xy [1, 2],
       Geometry.geometrycollection .xyz
         (.cons (.linestring .xyz [[1, 2, 3], [4, 5, 6]]) .nil)] :
        List (Geometry Nat)), g.dim = .xy ∨ g.dim = .xyz) ∧
    fromWkbArr (toWkbArr
      [Geometry.point .xy [1, 2],
       Geometry.geometrycollection .xyz
         (.cons (.linestring .xyz [[1, 2, 3], [4, 5, 6]]) .nil)]) =
      some [Geometry.point .xy [1, 2],
       Geometry.geometrycollection .xyz
         (.cons (.linestring .xyz [[1, 2, 3], [4, 5, 6]]) .nil)] :=
  ⟨by decide, by decide, wkb_round_trip _ (by decide) (by decide)⟩

/-! ### Geometry type descriptor

Modelled from the spec (§3 Geometry Type Descriptor, §6 schema metadata
contract) and pinned by the repository's Python test assertions
(test_geoarrow_type.py): the Rust GeoArrowType and its constructors are not
in the visible source tree. -/

/-- Coordinate layouts. -/
inductive CoordType where
  | interleaved | separated
deriving DecidableEq

/-- Edge interpretation tokens. -/
inductive EdgeKind where
  | andoyer | karney | spherical | thomas | vincenty
deriving DecidableEq

/-- Physical width variants for serialized (WKB/WKT) arrays. -/
inductive SerVariant where
  | plain | large | view
deriving DecidableEq

/-- Geometry kinds of the type system. -/
inductive GKind where
  | point | linestring | polygon | multipoint | multilinestring
  | multipolygon | geometrycollection | box | geometry
  | wkb (v : SerVariant)
  | wkt (v : SerVariant)
deriving DecidableEq

/-- The kind of one geometry value. -/
def Geometry.kind {α : Type} : Geometry α → GKind
  | .point _ _ => .point
  | .linestring _ _ => .linestring
  | .polygon _ _ => .polygon
  | .multipoint _ _ => .multipoint
  | .multilinestring _ _ => .multilinestring
  | .multipolygon _ _ => .multipolygon
  | .geometrycollection _ _ => .geometrycollection

/-- The geometry type descriptor: kind, optional dimension, optional
coordinate layout, opaque CRS token, optional edge interpretation. -/
structure GeoArrowType where
  kind : GKind
  dim : Option Dim
  coordType : Option CoordType
  crs : Option String
  edges : Option EdgeKind
deriving DecidableEq

/-- Modelled from the spec: constructor for the seven native kinds
(point(), linestring(), ... in the bindings). -/
def nativeT (k : GKind) (d : Dim) (ct : CoordType) (crs : Option String)
    (e : Option EdgeKind) : GeoArrowType :=
  ⟨k, some d, some ct, crs, e⟩

/-- Modelled from the spec: the point(dim, coord_type, crs, edges)
constructor. -/
def pointT (d : Dim) (ct : CoordType) (crs : Option String)
    (e : Option EdgeKind) : GeoArrowType :=
  nativeT .point d ct crs e

/-- Modelled from the spec and test_create_geometry: the geometry()
constructor of the generic kind carries a coordinate layout but no
dimension. -/
def geometryT (ct : CoordType) (crs : Option String) (e : Option EdgeKind) :
    GeoArrowType :=
  ⟨.geometry, none, some ct, crs, e⟩

/-- Modelled from the spec and test_create_box: box() always uses the
separated layout. -/
def boxT (d : Dim) (crs : Option String) (e : Option EdgeKind) :
    GeoArrowType :=
  ⟨.box, some d, some .separated, crs, e⟩

/-- Modelled from the spec and test_create_wkb: the wkb() constructor. -/
def wkbT (crs : Option String) (e : Option EdgeKind) : GeoArrowType :=
  ⟨.wkb .plain, none, none, crs, e⟩

/-- Modelled from the spec: large_wkb(). -/
def largeWkbT (crs : Option String) (e : Option EdgeKind) : GeoArrowType :=
  ⟨.wkb .large, none, none, crs, e⟩

/-- Modelled from the spec: wkb_view(). -/
def wkbViewT (crs : Option String) (e : Option EdgeKind) : GeoArrowType :=
  ⟨.wkb .view, none, none, crs, e⟩

/-- Modelled from the spec and test_create_wkt: the wkt() constructor. -/
def wktT (crs : Option String) (e : Option EdgeKind) : GeoArrowType :=
  ⟨.wkt .plain, none, none, crs, e⟩

/-- Modelled from the spec: large_wkt(). -/
def largeWktT (crs : Option String) (e : Option EdgeKind) : GeoArrowType :=
  ⟨.wkt .large, none, none, crs, e⟩

/-- Modelled from the spec: wkt_view(). -/
def wktViewT (crs : Option String) (e : Option EdgeKind) : GeoArrowType :=
  ⟨.wkt .view, none, none, crs, e⟩

/-! ### Arrow field encoding of the type descriptor -/

/-- Arrow storage data types, to the granularity the geoarrow encoding
uses. -/
inductive ArrowType where
  | float64
  | fixedSizeList (childName : String) (child : ArrowType) (n : Nat)
  | strct (fields : List (String × ArrowType))
  | list (childName : String) (child : ArrowType)
  | binary | largeBinary | binaryView
  | utf8 | largeUtf8 | utf8View
  | union (children : List (Nat × ArrowType))

/-- Arrow extension metadata at JSON-object level: optional crs token and
optional edges string. -/
structure ExtMeta where
  crs : Option String
  edges : Option EdgeKind

/-- An Arrow field: extension name, extension metadata, storage type. -/
structure ArrowField where
  extName : String
  meta : ExtMeta
  storage : ArrowType

/-- Interleaved coordinate child-field name. -/
def dimName : Dim → String
  | .xy => "xy"
  | .xyz => "xyz"
  | .xym => "xym"
  | .xyzm => "xyzm"

/-- Separated-layout struct fields. -/
def sepFields (d : Dim) : List (String × ArrowType) :=
  match d with
  | .xy => [("x", .float64), ("y", .float64)]
  | .xyz => [("x", .float64), ("y", .float64), ("z", .float64)]
  | .xym => [("x", .float64), ("y", .float64), ("m", .float64)]
  | .xyzm => [("x", .float64), ("y", .float64), ("z", .float64),
      ("m", .float64)]

/-- Storage of one coordinate buffer. -/
def coordStorage (d : Dim) (ct : CoordType) : ArrowType :=
  match ct with
  | .interleaved => .fixedSizeList (dimName d) .float64 d.size
  | .separated => .strct (sepFields d)

/-- Union type-id of a (kind, dimension) child in the generic geometry
union: kind code plus ten times the dimension index. -/
def unionIdOffset : Dim → Nat
  | .xy => 0
  | .xyz => 10
  | .xym => 20
  | .xyzm => 30

/-- Kind code of the seven native kinds. -/
def nativeKindCode : GKind → Nat
  | .point => 1
  | .linestring => 2
  | .polygon => 3
  | .multipoint => 4
  | .multilinestring => 5
  | .multipolygon => 6
  | .geometrycollection => 7
  | _ => 0

/-- Storage of the six primitive (non-collection) native kinds. -/
def primStorage (k : GKind) (d : Dim) (ct : CoordType) : ArrowType :=
  match k with
  | .linestring => .list "vertices" (coordStorage d ct)
  | .polygon => .list "rings" (.list "vertices" (coordStorage d ct))
  | .multipoint => .list "points" (coordStorage d ct)
  | .multilinestring => .list "linestrings" (.list "vertices" (coordStorage d ct))
  | .multipolygon =>
      .list "polygons" (.list "rings" (.list "vertices" (coordStorage d ct)))
  | _ => coordStorage d ct

/-- The mixed-geometry union of the six primitive kinds at one dimension
(the child of a geometry collection). -/
def mixedUnion (d : Dim) (ct : CoordType) : ArrowType :=
  .union (([GKind.point, .linestring, .polygon, .multipoint,
      .multilinestring, .multipolygon]).map
    (fun k => (nativeKindCode k + unionIdOffset d, primStorage k d ct)))

/-- Storage of one native kind at one dimension. -/
def nativeStorage (k : GKind) (d : Dim) (ct : CoordType) : ArrowType :=
  match k with
  | .geometrycollection => .list "geometries" (mixedUnion d ct)
  | _ => primStorage k d ct

/-- Storage of the generic geometry union: all seven kinds at all four
dimensions. -/
def geometryStorage (ct : CoordType) : ArrowType :=
  .union ((([Dim.xy, .xyz, .xym, .xyzm]).map
    (fun d => ([GKind.point, .linestring, .polygon, .multipoint,
        .multilinestring, .multipolygon, .geometrycollection]).map
      (fun k => (nativeKindCode k + unionIdOffset d, nativeStorage k d ct)))).flatten)

/-- Box storage: a struct of per-dimension minimums then maximums. -/
def boxFields (d : Dim) : List (String × ArrowType) :=
  match d with
  | .xy => [("xmin", .float64), ("ymin", .float64),
      ("xmax", .float64), ("ymax", .float64)]
  | .xyz => [("xmin", .float64), ("ymin", .float64), ("zmin", .float64),
      ("xmax", .float64), ("ymax", .float64), ("zmax", .float64)]
  | .xym => [("xmin", .float64), ("ymin", .float64), ("mmin", .float64),
      ("xmax", .float64), ("ymax", .float64), ("mmax", .float64)]
  | .xyzm => [("xmin", .float64), ("ymin", .float64), ("zmin", .float64),
      ("mmin", .float64), ("xmax", .float64), ("ymax", .float64),
      ("zmax", .float64), ("mmax", .float64)]

/-- Extension name of each kind (the ARROW:extension:name value). -/
def extNameOf : GKind → String
  | .point => "geoarrow.point"
  | .linestring => "geoarrow.linestring"
  | .polygon => "geoarrow.polygon"
  | .multipoint => "geoarrow.multipoint"
  | .multilinestring => "geoarrow.multilinestring"
  | .multipolygon => "geoarrow.multipolygon"
  | .geometrycollection => "geoarrow.geometrycollection"
  | .box => "geoarrow.box"
  | .geometry => "geoarrow.geometry"
  | .wkb _ => "geoarrow.wkb"
  | .wkt _ => "geoarrow.wkt"

/-- Storage of a descriptor, defined exactly on the valid descriptor
shapes. -/
def storageOf : GKind → Option Dim → Option CoordType → Option ArrowType
  | .point, some d, some ct => some (nativeStorage .point d ct)
  | .linestring, some d, some ct => some (nativeStorage .linestring d ct)
  | .polygon, some d, some ct => some (nativeStorage .polygon d ct)
  | .multipoint, some d, some ct => some (nativeStorage .multipoint d ct)
  | .multilinestring, some d, some ct =>
      some (nativeStorage .multilinestring d ct)
  | .multipolygon, some d, some ct => some (nativeStorage .multipolygon d ct)
  | .geometrycollection, some d, some ct =>
      some (nativeStorage .geometrycollection d ct)
  | .geometry, none, some ct => some (geometryStorage ct)
  | .box, some d, some .separated => some (.strct (boxFields d))
  | .wkb .plain, none, none => some .binary
  | .wkb .large, none, none => some .largeBinary
  | .wkb .view, none, none => some .binaryView
  | .wkt .plain, none, none => some .utf8
  | .wkt .large, none, none => some .largeUtf8
  | .wkt .view, none, none => some .utf8View
  | _, _, _ => none

/-- A descriptor the encoding is defined on. -/
def validType (t : GeoArrowType) : Bool :=
  (storageOf t.kind t.dim t.coordType).isSome

/-- Encode a descriptor as an Arrow field (Field.from_arrow direction). -/
def encodeField (t : GeoArrowType) : Option ArrowField :=
  match storageOf t.kind t.dim t.coordType with
  | none => none
  | some s => some ⟨extNameOf t.kind, ⟨t.crs, t.edges⟩, s⟩

/-- Recover dimension and layout from a coordinate storage type. -/
def decodeCoords : ArrowType → Option (Dim × CoordType)
  | .fixedSizeList nm .float64 n =>
    match nm, n with
    | "xy", 2 => some (.xy, .interleaved)
    | "xyz", 3 => some (.xyz, .interleaved)
    | "xym", 3 => some (.xym, .interleaved)
    | "xyzm", 4 => some (.xyzm, .interleaved)
    | _, _ => none
  | .strct fields =>
    match fields.map Prod.fst with
    | ["x", "y"] => some (.xy, .separated)
    | ["x", "y", "z"] => some (.xyz, .separated)
    | ["x", "y", "m"] => some (.xym, .separated)
    | ["x", "y", "z", "m"] => some (.xyzm, .separated)
    | _ => none
  | _ => none

/-- Coordinate storage one list level down. -/
def decodeListCoords : ArrowType → Option (Dim × CoordType)
  | .list _ c => decodeCoords c
  | _ => none

/-- Coordinate storage two list levels down. -/
def decodeList2Coords : ArrowType → Option (Dim × CoordType)
  | .list _ (.list _ c) => decodeCoords c
  | _ => none

/-- Coordinate storage three list levels down. -/
def decodeList3Coords : ArrowType → Option (Dim × CoordType)
  | .list _ (.list _ (.list _ c)) => decodeCoords c
  | _ => none

/-- Dimension and layout of a mixed/generic union, read off its first
(point) child. -/
def decodeUnionCoords : ArrowType → Option (Dim × CoordType)
  | .union ((_, s1) :: _) => decodeCoords s1
  | _ => none

/-- Decode an Arrow field back to a descriptor (GeoArrowType.from_arrow
direction). -/
def fromArrowField (f : ArrowField) : Option GeoArrowType :=
  match f.extName with
  | "geoarrow.point" =>
    (decodeCoords f.storage).map
      (fun p => ⟨.point, some p.1, some p.2, f.meta.crs, f.meta.edges⟩)
  | "geoarrow.linestring" =>
    (decodeListCoords f.storage).map
      (fun p => ⟨.linestring, some p.1, some p.2, f.meta.crs, f.meta.edges⟩)
  | "geoarrow.polygon" =>
    (decodeList2Coords f.storage).map
      (fun p => ⟨.polygon, some p.1, some p.2, f.meta.crs, f.meta.edges⟩)
  | "geoarrow.multipoint" =>
    (decodeListCoords f.storage).map
      (fun p => ⟨.multipoint, some p.1, some p.2, f.meta.crs, f.meta.edges⟩)
  | "geoarrow.multilinestring" =>
    (decodeList2Coords f.storage).map
      (fun p =>
        ⟨.multilinestring, some p.1, some p.2, f.meta.crs, f.meta.edges⟩)
  | "geoarrow.multipolygon" =>
    (decodeList3Coords f.storage).map
      (fun p => ⟨.multipolygon, some p.1, some p.2, f.meta.crs, f.meta.edges⟩)
  | "geoarrow.geometrycollection" =>
    match f.storage with
    | .list _ u =>
      (decodeUnionCoords u).map
        (fun p =>
          ⟨.geometrycollection, some p.1, some p.2, f.meta.crs, f.meta.edges⟩)
    | _ => none
  | "geoarrow.geometry" =>
    (decodeUnionCoords f.storage).map
      (fun p => ⟨.geometry, none, some p.2, f.meta.crs, f.meta.edges⟩)
  | "geoarrow.box" =>
    match f.storage with
    | .strct fields =>
      match fields.map Prod.fst with
      | ["xmin", "ymin", "xmax", "ymax"] =>
        some ⟨.box, some .xy, some .separated, f.meta.crs, f.meta.edges⟩
      | ["xmin", "ymin", "zmin", "xmax", "ymax", "zmax"] =>
        some ⟨.box, some .xyz, some .separated, f.meta.crs, f.meta.edges⟩
      | ["xmin", "ymin", "mmin", "xmax", "ymax", "mmax"] =>
        some ⟨.box, some .xym, some .separated, f.meta.crs, f.meta.edges⟩
      | ["xmin", "ymin", "zmin", "mmin", "xmax", "ymax", "zmax", "mmax"] =>
        some ⟨.box, some .xyzm, some .separated, f.meta.crs, f.meta.edges⟩
      | _ => none
    | _ => none
  | "geoarrow.wkb" =>
    match f.storage with
    | .binary => some ⟨.wkb .plain, none, none, f.meta.crs, f.meta.edges⟩
    | .largeBinary => some ⟨.wkb .large, none, none, f.meta.crs, f.meta.edges⟩
    | .binaryView => some ⟨.wkb .view, none, none, f.meta.crs, f.meta.edges⟩
    | _ => none
  | "geoarrow.wkt" =>
    match f.storage with
    | .utf8 => some ⟨.wkt .plain, none, none, f.meta.crs, f.meta.edges⟩
    | .largeUtf8 => some ⟨.wkt .large, none, none, f.meta.crs, f.meta.edges⟩
    | .utf8View => some ⟨.wkt .view, none, none, f.meta.crs, f.meta.edges⟩
    | _ => none
  | _ => none

/-- Claim C7: encoding any valid type descriptor as an Arrow field with
extension metadata and decoding the field back yields the same
descriptor. -/
theorem geoarrow_type_field_round_trip (t : GeoArrowType)
    (h : validType t = true) :
    (encodeField t).bind fromArrowField = some t := by
  obtain ⟨k, dim, ct, crs, e⟩ := t
  cases k with
  | point =>
    cases dim <;> cases ct <;>
      first
        | (rename_i d c; cases d <;> cases c <;> rfl)
        | exact absurd h (by simp [validType, storageOf])
  | linestring =>
    cases dim <;> cases ct <;>
      first
        | (rename_i d c; cases d <;> cases c <;> rfl)
        | exact absurd h (by simp [validType, storageOf])
  | polygon =>
    cases dim <;> cases ct <;>
      first
        | (rename_i d c; cases d <;> cases c <;> rfl)
        | exact absurd h (by simp [validType, storageOf])
  | multipoint =>
    cases dim <;> cases ct <;>
      first
        | (rename_i d c; cases d <;> cases c <;> rfl)
        | exact absurd h (by simp [validType, storageOf])
  | multilinestring =>
    cases dim <;> cases ct <;>
      first
        | (rename_i d c; cases d <;> cases c <;> rfl)
        | exact absurd h (by simp [validType, storageOf])
  | multipolygon =>
    cases dim <;> cases ct <;>
      first
        | (rename_i d c; cases d <;> cases c <;> rfl)
        | exact absurd h (by simp [validType, storageOf])
  | geometrycollection =>
    cases dim <;> cases ct <;>
      first
        | (rename_i d c; cases d <;> cases c <;> rfl)
        | exact absurd h (by simp [validType, storageOf])
  | box =>
    cases dim <;> cases ct <;>
      first
        | (rename_i d c; cases d <;> cases c <;>
            first
              | rfl
              | exact absurd h (by simp [validType, storageOf]))
        | exact absurd h (by simp [validType, storageOf])
  | geometry =>
    cases dim <;> cases ct <;>
      first
        | (rename_i c; cases c <;> rfl)
        | exact absurd h (by simp [validType, storageOf])
  | wkb v =>
    cases v <;> cases dim <;> cases ct <;>
      first
        | rfl
        | exact absurd h (by simp [validType, storageOf])
  | wkt v =>
    cases v <;> cases dim <;> cases ct <;>
      first
        | rfl
        | exact absurd h (by simp [validType, storageOf])

/-- Witness for C7 at the point("xy", crs="EPSG:4326") descriptor. -/
theorem geoarrow_type_field_round_trip_witness :
    validType (pointT .xy .interleaved (some "EPSG:4326") none) = true ∧
      (encodeField (pointT .xy .interleaved (some "EPSG:4326") none)).bind
          fromArrowField =
        some (pointT .xy .interleaved (some "EPSG:4326") none) :=
  ⟨rfl, geoarrow_type_field_round_trip _ rfl⟩

/-- Counterexample to claim C5 as stated: the generic Geometry descriptor
does carry a coordinate layout (test_create_geometry asserts
t.coord_type == coord_type), so its coord_type is not None. -/
theorem c5_counterexample :
    (geometryT .interleaved none none).kind = .geometry ∧
      (geometryT .interleaved none none).coordType ≠ none := by
  constructor
  · rfl
  · simp [geometryT]

/-- Claim C5 (amended): descriptors of kind WKB or WKT have no coordinate
layout and no dimension, however constructed; the generic Geometry
descriptor has no dimension but carries the coordinate layout it was
constructed with. -/
theorem serialized_descriptors_have_no_layout (crs : Option String)
    (e : Option EdgeKind) (ct : CoordType) :
    (wkbT crs e).coordType = none ∧ (wkbT crs e).dim = none ∧
    (largeWkbT crs e).coordType = none ∧ (largeWkbT crs e).dim = none ∧
    (wkbViewT crs e).coordType = none ∧ (wkbViewT crs e).dim = none ∧
    (wktT crs e).coordType = none ∧ (wktT crs e).dim = none ∧
    (largeWktT crs e).coordType = none ∧ (largeWktT crs e).dim = none ∧
    (wktViewT crs e).coordType = none ∧ (wktViewT crs e).dim = none ∧
    (geometryT ct crs e).dim = none ∧
    (geometryT ct crs e).coordType = some ct := by
  refine ⟨rfl, rfl, rfl, rfl, rfl, rfl, rfl, rfl, rfl, rfl, rfl, rfl, rfl, rfl⟩

/-! ### CRS helpers of the Python bindings

Embedded from src/python/geoarrow-core/python/geoarrow/rust/core/_crs.py:
parse_metadata, get_geometry_field and the Schema branch of get_crs.  A
metadata string is modelled by its parsed JSON value (json.loads is the
Python standard library); pyproj's CRS.from_user_input is an external
function and is a parameter of the embedding. -/

/-- JSON values, to the granularity the CRS helpers inspect. -/
inductive Json where
  | null
  | str (s : String)
  | num (n : Int)
  | obj (fields : List (String × Json))

/-- First-match association-list lookup (a Python dict read). -/
def assocLookup : List (String × Json) → String → Option Json
  | [], _ => none
  | (k, v) :: rest, key =>
    if k = key then some v else assocLookup rest key

/-- Python dict.get semantics on a JSON object: an absent key and a JSON
null value are both Python None. -/
def pyGet (fields : List (String × Json)) (key : String) : Option Json :=
  match assocLookup fields key with
  | some .null => none
  | some v => some v
  | none => none

/-- parse_metadata of _crs.py: read the extension-metadata object
(defaulting to the empty object when the metadata string is absent), get
its crs entry, and interpret a present non-None value through
CRS.from_user_input. -/
def parse_metadata {χ : Type} (fromUserInput : Json → χ)
    (extMeta : Option (List (String × Json))) : Option χ :=
  let ext := extMeta.getD []
  match pyGet ext "crs" with
  | none => none
  | some v => some (fromUserInput v)

/-- An Arrow field as the CRS helpers see it: its name, its
ARROW:extension:name metadata entry, and its parsed
ARROW:extension:metadata entry. -/
structure PyField where
  name : String
  extName : Option String
  extMeta : Option (List (String × Json))

/-- Python str.startswith at character-list level. -/
def charsMatch : List Char → List Char → Bool
  | [], _ => true
  | _ :: _, [] => false
  | p :: ps, c :: cs => p = c && charsMatch ps cs

/-- The geoarrow-column test of get_geometry_field:
metadata.get("ARROW:extension:name", "").startswith("geoarrow"). -/
def isGeoField (f : PyField) : Bool :=
  charsMatch "geoarrow".data (f.extName.getD "").data

/-- get_geometry_field of _crs.py. -/
def get_geometry_field (schema : List PyField) (column : Option String) :
    Except String PyField :=
  match column with
  | some c =>
    match schema.find? (fun f => f.name = c) with
    | some f => .ok f
    | none => .error "field not found"
  | none =>
    match schema.filter isGeoField with
    | [] => .error "No geoarrow columns found."
    | [f] => .ok f
    | _ :: _ :: _ =>
      .error "Multiple geoarrow columns found. Choose one with the `column` parameter."

/-- The Schema branch of get_crs of _crs.py: select the geometry field,
then parse its metadata. -/
def get_crs_schema {χ : Type} (fromUserInput : Json → χ)
    (schema : List PyField) (column : Option String) :
    Except String (Option χ) :=
  match get_geometry_field schema column with
  | .error e => .error e
  | .ok fld => .ok (parse_metadata fromUserInput fld.extMeta)

/-- Counterexample to claim C6 as stated: a metadata object whose crs key
is present with a JSON null value is answered None by parse_metadata, not
CRS.from_user_input of that value (line 63 of _crs.py tests
crs_val is not None, and Python conflates a null value with an absent
key). -/
theorem c6_counterexample :
    assocLookup [("crs", Json.null)] "crs" = some .null ∧
      parse_metadata (fun v => v) (some [("crs", Json.null)]) = none :=
  ⟨rfl, rfl⟩

/-- Claim C6 (amended): with no crs key (including absent metadata) or a
null crs value, parse_metadata returns None and no default CRS; a present
non-null crs value is interpreted via CRS.from_user_input. -/
theorem parse_metadata_crs_behavior {χ : Type} (f : Json → χ)
    (fields : List (String × Json)) (v : Json) :
    parse_metadata f none = none ∧
    (assocLookup fields "crs" = none → parse_metadata f (some fields) = none) ∧
    (assocLookup fields "crs" = some .null →
      parse_metadata f (some fields) = none) ∧
    (assocLookup fields "crs" = some v → v ≠ .null →
      parse_metadata f (some fields) = some (f v)) := by
  refine ⟨rfl, ?_, ?_, ?_⟩
  · intro h
    simp [parse_metadata, pyGet, h]
  · intro h
    simp [parse_metadata, pyGet, h]
  · intro h hv
    cases v with
    | null => exact absurd rfl hv
    | str s => simp [parse_metadata, pyGet, h]
    | num n => simp [parse_metadata, pyGet, h]
    | obj l => simp [parse_metadata, pyGet, h]

/-- Witness for the amended C6 at a concrete metadata object holding an
EPSG string. -/
theorem parse_metadata_crs_behavior_witness :
    (assocLookup [("crs", Json.str "EPSG:4326")] "crs" =
        some (.str "EPSG:4326") ∧ Json.str "EPSG:4326" ≠ .null) ∧
      parse_metadata (fun v => v) (some [("crs", Json.str "EPSG:4326")]) =
        some (.str "EPSG:4326") :=
  ⟨⟨rfl, by simp⟩,
    (parse_metadata_crs_behavior (fun v => v) [("crs", Json.str "EPSG:4326")]
      (.str "EPSG:4326")).2.2.2 rfl (by simp)⟩

/-- Claim C10: get_crs with no column argument returns the single
geoarrow field's CRS, errors with "No geoarrow columns found." when none
qualifies, errors with the multiple-columns message when two or more
qualify, and a column name selects that field directly. -/
theorem get_crs_column_selection {χ : Type} (f : Json → χ)
    (schema : List PyField) :
    (∀ fld, schema.filter isGeoField = [fld] →
      get_crs_schema f schema none = .ok (parse_metadata f fld.extMeta)) ∧
    (schema.filter isGeoField = [] →
      get_crs_schema f schema none = .error "No geoarrow columns found.") ∧
    (2 ≤ (schema.filter isGeoField).length →
      get_crs_schema f schema none =
        .error
          "Multiple geoarrow columns found. Choose one with the `column` parameter.") ∧
    (∀ c fld, schema.find? (fun g => g.name = c) = some fld →
      get_crs_schema f schema (some c) =
        .ok (parse_metadata f fld.extMeta)) := by
  refine ⟨?_, ?_, ?_, ?_⟩
  · intro fld h
    simp [get_crs_schema, get_geometry_field, h]
  · intro h
    simp [get_crs_schema, get_geometry_field, h]
  · intro h
    match hg : schema.filter isGeoField with
    | [] => rw [hg] at h; simp at h
    | [fld] => rw [hg] at h; simp at h
    | a :: b :: rest => simp [get_crs_schema, get_geometry_field, hg]
  · intro c fld h
    simp [get_crs_schema, get_geometry_field, h]

/-- Witness for C10 at a two-field schema with one geoarrow column. -/
theorem get_crs_column_selection_witness :
    ([PyField.mk "geometry" (some "geoarrow.point")
        (some [("crs", Json.str "EPSG:4326")]),
      PyField.mk "other" none none].filter isGeoField =
      [PyField.mk "geometry" (some "geoarrow.point")
        (some [("crs", Json.str "EPSG:4326")])]) ∧
      get_crs_schema (fun v => v)
          [PyField.mk "geometry" (some "geoarrow.point")
            (some [("crs", Json.str "EPSG:4326")]),
           PyField.mk "other" none none] none =
        .ok (some (.str "EPSG:4326")) :=
  ⟨rfl,
    (get_crs_column_selection (fun v => v)
        [PyField.mk "geometry" (some "geoarrow.point")
          (some [("crs", Json.str "EPSG:4326")]),
         PyField.mk "other" none none]).1
      (PyField.mk "geometry" (some "geoarrow.point")
        (some [("crs", Json.str "EPSG:4326")])) rfl⟩

/-! ### Downcast classifier

Modelled from the spec (§4.3, the Rust classifier is not in the visible
source tree): scan once over the rows' kinds, apply the promotion lattice
(Point < MultiPoint, LineString < MultiLineString, Polygon < MultiPolygon),
promote the dimension to the highest observed value padding missing
coordinates with a defined padding value, and take the output coordinate
layout from the caller's preference. -/

/-- Join of two dimensions: the least dimension containing both. -/
def Dim.join : Dim → Dim → Dim
  | .xy, d => d
  | d, .xy => d
  | .xyz, .xyz => .xyz
  | .xym, .xym => .xym
  | _, _ => .xyzm

/-- Convert one coordinate from dimension d1 to dimension d2, padding
components d1 lacks. -/
def coordConvert {α : Type} (d1 d2 : Dim) (c : List α) (pad : α) : List α :=
  let x := c.getD 0 pad
  let y := c.getD 1 pad
  let z := match d1 with
    | .xyz => c.getD 2 pad
    | .xyzm => c.getD 2 pad
    | _ => pad
  let m := match d1 with
    | .xym => c.getD 2 pad
    | .xyzm => c.getD 3 pad
    | _ => pad
  match d2 with
  | .xy => [x, y]
  | .xyz => [x, y, z]
  | .xym => [x, y, m]
  | .xyzm => [x, y, z, m]

mutual
def convGeom {α : Type} (d2 : Dim) (pad : α) : Geometry α → Geometry α
  | .point d c => .point d2 (coordConvert d d2 c pad)
  | .linestring d cs =>
      .linestring d2 (cs.map (fun c => coordConvert d d2 c pad))
  | .polygon d rs =>
      .polygon d2 (rs.map (fun r => r.map (fun c => coordConvert d d2 c pad)))
  | .multipoint d ps =>
      .multipoint d2 (ps.map (fun c => coordConvert d d2 c pad))
  | .multilinestring d ls =>
      .multilinestring d2
        (ls.map (fun r => r.map (fun c => coordConvert d d2 c pad)))
  | .multipolygon d pp =>
      .multipolygon d2
        (pp.map (fun p =>
          p.map (fun r => r.map (fun c => coordConvert d d2 c pad))))
  | .geometrycollection _ gs => .geometrycollection d2 (convGeomList d2 pad gs)
def convGeomList {α : Type} (d2 : Dim) (pad : α) : GeomList α → GeomList α
  | .nil => .nil
  | .cons g tl => .cons (convGeom d2 pad g) (convGeomList d2 pad tl)
end

/- Uniform-dimension well-formedness: every node is tagged d and every
coordinate has d.size values. -/
mutual
def geomDimWF {α : Type} (d : Dim) : Geometry α → Bool
  | .point d1 c => d1 = d && c.length = d.size
  | .linestring d1 cs => d1 = d && cs.all (fun c => c.length = d.size)
  | .polygon d1 rs =>
      d1 = d && rs.all (fun r => r.all (fun c => c.length = d.size))
  | .multipoint d1 ps => d1 = d && ps.all (fun c => c.length = d.size)
  | .multilinestring d1 ls =>
      d1 = d && ls.all (fun r => r.all (fun c => c.length = d.size))
  | .multipolygon d1 pp =>
      d1 = d &&
        pp.all (fun p => p.all (fun r => r.all (fun c => c.length = d.size)))
  | .geometrycollection d1 gs => d1 = d && geomListDimWF d gs
def geomListDimWF {α : Type} (d : Dim) : GeomList α → Bool
  | .nil => true
  | .cons g tl => geomDimWF d g && geomListDimWF d tl
end

/-- Single-kind classification of the observed kind set, per the spec's
promotion lattice; none means the array stays Generic. -/
def classifyKinds (ks : List GKind) : Option GKind :=
  match ks with
  | [] => none
  | _ :: _ =>
    if ks.all (fun k => k == GKind.point) then some .point
    else if ks.all (fun k => k == GKind.point || k == GKind.multipoint) then
      some .multipoint
    else if ks.all (fun k => k == GKind.linestring) then some .linestring
    else if ks.all
        (fun k => k == GKind.linestring || k == GKind.multilinestring) then
      some .multilinestring
    else if ks.all (fun k => k == GKind.polygon) then some .polygon
    else if ks.all
        (fun k => k == GKind.polygon || k == GKind.multipolygon) then
      some .multipolygon
    else if ks.all (fun k => k == GKind.geometrycollection) then
      some .geometrycollection
    else none

/-- Promote one row into the classified target kind: a point becomes a
one-part multipoint, and similarly for the other promoted pairs. -/
def promoteRow {α : Type} (k : GKind) (g : Geometry α) : Geometry α :=
  match k, g with
  | .multipoint, .point d c => .multipoint d [c]
  | .multilinestring, .linestring d cs => .multilinestring d [cs]
  | .multipolygon, .polygon d rs => .multipolygon d [rs]
  | _, _ => g

/-- A geometry array: a type descriptor plus its decoded rows. -/
structure GeoArray (α : Type) where
  typ : GeoArrowType
  rows : List (Geometry α)

/-- Downcast core: classify the kinds, join the dimensions, and rebuild
the rows; none means the rows stay Generic and untouched. -/
def downcastRows {α : Type} (pad : α) (rows : List (Geometry α)) :
    Option GKind × Dim × List (Geometry α) :=
  let dj := (rows.map Geometry.dim).foldl Dim.join .xy
  match classifyKinds (rows.map Geometry.kind) with
  | none => (none, dj, rows)
  | some k => (some k, dj, rows.map (fun g => promoteRow k (convGeom dj pad g)))

/-- Downcast of an array: rebuild the descriptor with the classified kind
and joined dimension, the caller's coordinate-layout preference, and the
input's CRS and edges carried through unchanged. -/
def downcast {α : Type} (pad : α) (a : GeoArray α) (pref : CoordType) :
    GeoArray α :=
  match downcastRows pad a.rows with
  | (none, _, rows) =>
    ⟨⟨.geometry, none, some pref, a.typ.crs, a.typ.edges⟩, rows⟩
  | (some k, dj, rows) =>
    ⟨⟨k, some dj, some pref, a.typ.crs, a.typ.edges⟩, rows⟩

/-- Cast an array to another descriptor without touching rows (the
zero-copy cast to the generic Geometry type). -/
def castArr {α : Type} (a : GeoArray α) (t : GeoArrowType) : GeoArray α :=
  ⟨t, a.rows⟩

/-- The points(coords, crs) array constructor: an interleaved XY point
array. -/
def pointsArr {α : Type} (coords : List (List α)) (crs : Option String) :
    GeoArray α :=
  ⟨pointT .xy .interleaved crs none, coords.map (Geometry.point .xy)⟩

theorem dim_join_self (d : Dim) : d.join d = d := by cases d <;> rfl

theorem dim_join_xy (d : Dim) : Dim.join .xy d = d := by cases d <;> rfl

theorem foldl_join_const (l : List Dim) (d : Dim) (h : ∀ x ∈ l, x = d) :
    l.foldl Dim.join d = d := by
  induction l with
  | nil => rfl
  | cons x tl ih =>
    rw [List.foldl_cons, h x (by simp), dim_join_self]
    exact ih (fun y hy => h y (by simp [hy]))

theorem foldl_join_of_all_eq (l : List Dim) (d : Dim) (h0 : l ≠ [])
    (h : ∀ x ∈ l, x = d) : l.foldl Dim.join .xy = d := by
  cases l with
  | nil => exact absurd rfl h0
  | cons x tl =>
    rw [List.foldl_cons, h x (by simp), dim_join_xy]
    exact foldl_join_const tl d (fun y hy => h y (by simp [hy]))

theorem coordConvert_length {α : Type} (d1 d2 : Dim) (c : List α) (pad : α) :
    (coordConvert d1 d2 c pad).length = d2.size := by
  cases d2 <;> rfl

theorem coordConvert_id {α : Type} (d : Dim) (c : List α) (pad : α)
    (h : c.length = d.size) : coordConvert d d c pad = c := by
  cases d <;>
    rcases c with _ | ⟨x, _ | ⟨y, _ | ⟨z, _ | ⟨m, _ | ⟨w, r⟩⟩⟩⟩⟩ <;>
    first
      | rfl
      | simp [Dim.size] at h

theorem listMapFix {β : Type} (l : List β) (f : β → β)
    (h : ∀ x ∈ l, f x = x) : l.map f = l := by
  induction l with
  | nil => rfl
  | cons x tl ih =>
    simp [h x (by simp), ih (fun y hy => h y (by simp [hy]))]

mutual
theorem convGeom_dimWF {α : Type} (d2 : Dim) (pad : α) (g : Geometry α) :
    geomDimWF d2 (convGeom d2 pad g) = true := by
  cases g with
  | point d c => simp [convGeom, geomDimWF, coordConvert_length]
  | linestring d cs =>
    simp [convGeom, geomDimWF, List.all_map, Function.comp_def,
      coordConvert_length]
  | polygon d rs =>
    simp [convGeom, geomDimWF, List.all_map, Function.comp_def,
      coordConvert_length]
  | multipoint d ps =>
    simp [convGeom, geomDimWF, List.all_map, Function.comp_def,
      coordConvert_length]
  | multilinestring d ls =>
    simp [convGeom, geomDimWF, List.all_map, Function.comp_def,
      coordConvert_length]
  | multipolygon d pp =>
    simp [convGeom, geomDimWF, List.all_map, Function.comp_def,
      coordConvert_length]
  | geometrycollection d gs =>
    simp [convGeom, geomDimWF, convGeomList_dimWF d2 pad gs]
theorem convGeomList_dimWF {α : Type} (d2 : Dim) (pad : α) (gs : GeomList α) :
    geomListDimWF d2 (convGeomList d2 pad gs) = true := by
  cases gs with
  | nil => rfl
  | cons g tl =>
    simp [convGeomList, geomListDimWF, convGeom_dimWF d2 pad g,
      convGeomList_dimWF d2 pad tl]
end

theorem mapConv_id {α : Type} (d : Dim) (pad : α) (cs : List (List α))
    (h : ∀ c ∈ cs, c.length = d.size) :
    cs.map (fun c => coordConvert d d c pad) = cs :=
  listMapFix cs _ (fun c hc => coordConvert_id d c pad (h c hc))

theorem mapConv2_id {α : Type} (d : Dim) (pad : α) (rs : List (List (List α)))
    (h : ∀ r ∈ rs, ∀ c ∈ r, c.length = d.size) :
    rs.map (fun r => r.map (fun c => coordConvert d d c pad)) = rs :=
  listMapFix rs _ (fun r hr => mapConv_id d pad r (h r hr))

theorem mapConv3_id {α : Type} (d : Dim) (pad : α)
    (pp : List (List (List (List α))))
    (h : ∀ p ∈ pp, ∀ r ∈ p, ∀ c ∈ r, c.length = d.size) :
    pp.map (fun p => p.map (fun r => r.map (fun c => coordConvert d d c pad)))
      = pp :=
  listMapFix pp _ (fun p hp => mapConv2_id d pad p (h p hp))

mutual
theorem convGeom_id {α : Type} (d : Dim) (pad : α) (g : Geometry α)
    (h : geomDimWF d g = true) : convGeom d pad g = g := by
  cases g with
  | point d1 c =>
    simp only [geomDimWF, Bool.and_eq_true, decide_eq_true_eq] at h
    obtain ⟨hd, hlen⟩ := h
    subst hd
    simp [convGeom, coordConvert_id _ _ _ hlen]
  | linestring d1 cs =>
    simp only [geomDimWF, Bool.and_eq_true, decide_eq_true_eq,
      List.all_eq_true] at h
    obtain ⟨hd, hlen⟩ := h
    subst hd
    simp [convGeom, mapConv_id _ pad _ hlen]
  | polygon d1 rs =>
    simp only [geomDimWF, Bool.and_eq_true, decide_eq_true_eq,
      List.all_eq_true] at h
    obtain ⟨hd, hlen⟩ := h
    subst hd
    simp [convGeom, mapConv2_id _ pad _ hlen]
  | multipoint d1 ps =>
    simp only [geomDimWF, Bool.and_eq_true, decide_eq_true_eq,
      List.all_eq_true] at h
    obtain ⟨hd, hlen⟩ := h
    subst hd
    simp [convGeom, mapConv_id _ pad _ hlen]
  | multilinestring d1 ls =>
    simp only [geomDimWF, Bool.and_eq_true, decide_eq_true_eq,
      List.all_eq_true] at h
    obtain ⟨hd, hlen⟩ := h
    subst hd
    simp [convGeom, mapConv2_id _ pad _ hlen]
  | multipolygon d1 pp =>
    simp only [geomDimWF, Bool.and_eq_true, decide_eq_true_eq,
      List.all_eq_true] at h
    obtain ⟨hd, hlen⟩ := h
    subst hd
    simp [convGeom, mapConv3_id _ pad _ hlen]
  | geometrycollection d1 gs =>
    simp only [geomDimWF, Bool.and_eq_true, decide_eq_true_eq] at h
    obtain ⟨hd, hwf⟩ := h
    subst hd
    simp [convGeom, convGeomList_id _ pad _ hwf]
theorem convGeomList_id {α : Type} (d : Dim) (pad : α) (gs : GeomList α)
    (h : geomListDimWF d gs = true) : convGeomList d pad gs = gs := by
  cases gs with
  | nil => rfl
  | cons g tl =>
    simp only [geomListDimWF, Bool.and_eq_true] at h
    simp [convGeomList, convGeom_id d pad g h.1, convGeomList_id d pad tl h.2]
end

theorem geomDimWF_dim {α : Type} (d : Dim) (g : Geometry α)
    (h : geomDimWF d g = true) : g.dim = d := by
  cases g <;>
    (simp only [geomDimWF, Bool.and_eq_true, decide_eq_true_eq] at h;
     simp [Geometry.dim, h.1])

theorem convGeom_kind {α : Type} (d2 : Dim) (pad : α) (g : Geometry α) :
    (convGeom d2 pad g).kind = g.kind := by
  cases g <;> rfl

/-- Kind compatibility in the promotion lattice. -/
def compatKind (k k1 : GKind) : Bool :=
  k1 == k || (k == GKind.multipoint && k1 == GKind.point) ||
    (k == GKind.multilinestring && k1 == GKind.linestring) ||
    (k == GKind.multipolygon && k1 == GKind.polygon)

theorem promoteRow_of_kind {α : Type} (k : GKind) (g : Geometry α)
    (h : g.kind = k) : promoteRow k g = g := by
  cases k <;> cases g <;> simp_all [Geometry.kind, promoteRow]

theorem promoteRow_kind {α : Type} (k : GKind) (g : Geometry α)
    (h : compatKind k g.kind = true) : (promoteRow k g).kind = k := by
  cases k <;> cases g <;> simp_all [Geometry.kind, promoteRow, compatKind]

theorem promoteRow_dimWF {α : Type} (d : Dim) (k : GKind) (g : Geometry α)
    (h : geomDimWF d g = true) : geomDimWF d (promoteRow k g) = true := by
  cases k <;> cases g <;> simp_all [promoteRow, geomDimWF] <;> exact h.2

theorem all_of_eq_k (rest : List GKind) (k : GKind) (h : ∀ x ∈ rest, x = k)
    (p : GKind → Bool) (hp : p k = true) : rest.all p = true :=
  List.all_eq_true.mpr fun x hx => by rw [h x hx]; exact hp

theorem classify_uniform (ks : List GKind) (k : GKind)
    (hk : k = .point ∨ k = .multipoint ∨ k = .linestring ∨
      k = .multilinestring ∨ k = .polygon ∨ k = .multipolygon ∨
      k = .geometrycollection)
    (h0 : ks ≠ []) (hall : ∀ x ∈ ks, x = k) : classifyKinds ks = some k := by
  cases ks with
  | nil => exact absurd rfl h0
  | cons k0 rest =>
    have hk0 : k0 = k := hall k0 (by simp)
    subst hk0
    have hrest : ∀ x ∈ rest, x = k0 := fun x hx => hall x (by simp [hx])
    rcases hk with rfl | rfl | rfl | rfl | rfl | rfl | rfl <;>
      simp [classifyKinds, List.all_cons, all_of_eq_k rest _ hrest]

theorem classify_sound (ks : List GKind) (k : GKind)
    (h : classifyKinds ks = some k) :
    ks ≠ [] ∧
      (k = .point ∨ k = .multipoint ∨ k = .linestring ∨
        k = .multilinestring ∨ k = .polygon ∨ k = .multipolygon ∨
        k = .geometrycollection) ∧
      ∀ x ∈ ks, compatKind k x = true := by
  cases ks with
  | nil => simp [classifyKinds] at h
  | cons k0 rest =>
    refine ⟨by simp, ?_⟩
    simp only [classifyKinds] at h
    split_ifs at h with h1 h2 h3 h4 h5 h6 h7
    · cases h
      refine ⟨by simp, ?_⟩
      intro x hx
      have hx2 := List.all_eq_true.mp h1 x hx
      simp only [beq_iff_eq] at hx2
      subst hx2
      rfl
    · cases h
      refine ⟨by simp, ?_⟩
      intro x hx
      have hx2 := List.all_eq_true.mp h2 x hx
      simp only [Bool.or_eq_true, beq_iff_eq] at hx2
      rcases hx2 with rfl | rfl <;> rfl
    · cases h
      refine ⟨by simp, ?_⟩
      intro x hx
      have hx2 := List.all_eq_true.mp h3 x hx
      simp only [beq_iff_eq] at hx2
      subst hx2
      rfl
    · cases h
      refine ⟨by simp, ?_⟩
      intro x hx
      have hx2 := List.all_eq_true.mp h4 x hx
      simp only [Bool.or_eq_true, beq_iff_eq] at hx2
      rcases hx2 with rfl | rfl <;> rfl
    · cases h
      refine ⟨by simp, ?_⟩
      intro x hx
      have hx2 := List.all_eq_true.mp h5 x hx
      simp only [beq_iff_eq] at hx2
      subst hx2
      rfl
    · cases h
      refine ⟨by simp, ?_⟩
      intro x hx
      have hx2 := List.all_eq_true.mp h6 x hx
      simp only [Bool.or_eq_true, beq_iff_eq] at hx2
      rcases hx2 with rfl | rfl <;> rfl
    · cases h
      refine ⟨by simp, ?_⟩
      intro x hx
      have hx2 := List.all_eq_true.mp h7 x hx
      simp only [beq_iff_eq] at hx2
      subst hx2
      rfl

theorem downcastRows_uniform {α : Type} (pad : α)
    (rows : List (Geometry α)) (k : GKind) (d : Dim) (h0 : rows ≠ [])
    (hk7 : k = .point ∨ k = .multipoint ∨ k = .linestring ∨
      k = .multilinestring ∨ k = .polygon ∨ k = .multipolygon ∨
      k = .geometrycollection)
    (hkind : ∀ g ∈ rows, g.kind = k)
    (hdim : ∀ g ∈ rows, geomDimWF d g = true) :
    downcastRows pad rows = (some k, d, rows) := by
  have hdims : ∀ x ∈ rows.map Geometry.dim, x = d := by
    intro x hx
    obtain ⟨g, hg, rfl⟩ := List.mem_map.mp hx
    exact geomDimWF_dim d g (hdim g hg)
  have hne : rows.map Geometry.dim ≠ [] := by
    cases rows with
    | nil => exact absurd rfl h0
    | cons g tl => simp
  have hfold : (rows.map Geometry.dim).foldl Dim.join .xy = d :=
    foldl_join_of_all_eq _ d hne hdims
  have hne2 : rows.map Geometry.kind ≠ [] := by
    cases rows with
    | nil => exact absurd rfl h0
    | cons g tl => simp
  have hcl : classifyKinds (rows.map Geometry.kind) = some k := by
    refine classify_uniform _ k hk7 hne2 ?_
    intro x hx
    obtain ⟨g, hg, rfl⟩ := List.mem_map.mp hx
    exact hkind g hg
  have hmap : rows.map (fun g => promoteRow k (convGeom d pad g)) = rows := by
    refine listMapFix rows _ ?_
    intro g hg
    rw [convGeom_id d pad g (hdim g hg), promoteRow_of_kind k g (hkind g hg)]
  simp only [downcastRows, hfold, hcl, hmap]

theorem downcast_points_cast {α : Type} (pad : α) (coords : List (List α))
    (crs : Option String) (h0 : coords ≠ [])
    (hlen : ∀ c ∈ coords, c.length = 2) :
    downcast pad
      (castArr (pointsArr coords crs) (geometryT .interleaved crs none))
      .interleaved = pointsArr coords crs := by
  have hne : (coords.map (Geometry.point (α := α) .xy)) ≠ [] := by
    cases coords with
    | nil => exact absurd rfl h0
    | cons c tl => simp
  have hkind : ∀ g ∈ coords.map (Geometry.point (α := α) .xy),
      g.kind = .point := by
    intro g hg
    obtain ⟨c, hc, rfl⟩ := List.mem_map.mp hg
    rfl
  have hdim : ∀ g ∈ coords.map (Geometry.point (α := α) .xy),
      geomDimWF .xy g = true := by
    intro g hg
    obtain ⟨c, hc, rfl⟩ := List.mem_map.mp hg
    simp [geomDimWF, Dim.size, hlen c hc]
  have hrows := downcastRows_uniform pad (coords.map (Geometry.point .xy))
    .point .xy hne (by left; rfl) hkind hdim
  simp [downcast, castArr, pointsArr, hrows, geometryT, pointT, nativeT]

/-- Claim C2: downcast is idempotent, and a Point array cast to the
generic Geometry type and then downcast with interleaved preference equals
the original Point array. -/
theorem downcast_idempotent {α : Type} (pad : α) :
    (∀ (a : GeoArray α) (pref : CoordType),
      downcast pad (downcast pad a pref) pref = downcast pad a pref) ∧
    (∀ (coords : List (List α)) (crs : Option String), coords ≠ [] →
      (∀ c ∈ coords, c.length = 2) →
      downcast pad
        (castArr (pointsArr coords crs) (geometryT .interleaved crs none))
        .interleaved = pointsArr coords crs) := by
  constructor
  · intro a pref
    rcases hcl : classifyKinds (a.rows.map Geometry.kind) with _ | k
    · simp [downcast, downcastRows, hcl]
    · obtain ⟨hne, hk7, hcompat⟩ := classify_sound _ _ hcl
      have h1 : downcast pad a pref =
          ⟨⟨k, some ((a.rows.map Geometry.dim).foldl Dim.join .xy), some pref,
            a.typ.crs, a.typ.edges⟩,
           a.rows.map (fun g => promoteRow k (convGeom
             ((a.rows.map Geometry.dim).foldl Dim.join .xy) pad g))⟩ := by
        simp [downcast, downcastRows, hcl]
      set dj := (a.rows.map Geometry.dim).foldl Dim.join .xy with hdjdef
      rw [h1]
      have hkind2 : ∀ g2 ∈ a.rows.map
          (fun g => promoteRow k (convGeom dj pad g)), g2.kind = k := by
        intro g2 hg2
        obtain ⟨g, hg, rfl⟩ := List.mem_map.mp hg2
        refine promoteRow_kind k _ ?_
        rw [convGeom_kind]
        exact hcompat g.kind (List.mem_map_of_mem Geometry.kind hg)
      have hdim2 : ∀ g2 ∈ a.rows.map
          (fun g => promoteRow k (convGeom dj pad g)),
          geomDimWF dj g2 = true := by
        intro g2 hg2
        obtain ⟨g, hg, rfl⟩ := List.mem_map.mp hg2
        exact promoteRow_dimWF dj k _ (convGeom_dimWF dj pad g)
      have hne2 : a.rows.map (fun g => promoteRow k (convGeom dj pad g)) ≠
          [] := by
        cases hrows : a.rows with
        | nil => rw [hrows] at hne; exact absurd rfl hne
        | cons g tl => simp
      have h2 := downcastRows_uniform pad
        (a.rows.map (fun g => promoteRow k (convGeom dj pad g))) k dj hne2
        hk7 hkind2 hdim2
      simp [downcast, h2]
  · exact fun coords crs h0 hlen => downcast_points_cast pad coords crs h0 hlen

/-- Witness for C2 at a concrete two-point interleaved XY array. -/
theorem downcast_idempotent_witness :
    (([[1, 2], [3, 4]] : List (List Nat)) ≠ [] ∧
      (∀ c ∈ ([[1, 2], [3, 4]] : List (List Nat)), c.length = 2)) ∧
    downcast 0
        (castArr (pointsArr ([[1, 2], [3, 4]] : List (List Nat)) none)
          (geometryT .interleaved none none)) .interleaved =
      pointsArr ([[1, 2], [3, 4]] : List (List Nat)) none ∧
    downcast 0
        (downcast 0
          (castArr (pointsArr ([[1, 2], [3, 4]] : List (List Nat)) none)
            (geometryT .interleaved none none)) .interleaved) .interleaved =
      downcast 0
        (castArr (pointsArr ([[1, 2], [3, 4]] : List (List Nat)) none)
          (geometryT .interleaved none none)) .interleaved :=
  ⟨⟨by simp, by decide⟩,
    (downcast_idempotent 0).2 [[1, 2], [3, 4]] none (by simp) (by decide),
    (downcast_idempotent 0).1 _ .interleaved⟩

/-- Claim C9: downcast carries the CRS (and edges) through unchanged, and
a Point array with a CRS cast to the generic Geometry type with that CRS
and then downcast equals the original array, CRS included. -/
theorem downcast_carries_crs {α : Type} (pad : α) :
    (∀ (a : GeoArray α) (pref : CoordType),
      (downcast pad a pref).typ.crs = a.typ.crs ∧
        (downcast pad a pref).typ.edges = a.typ.edges) ∧
    (∀ (coords : List (List α)) (crs : Option String), coords ≠ [] →
      (∀ c ∈ coords, c.length = 2) →
      downcast pad
        (castArr (pointsArr coords crs) (geometryT .interleaved crs none))
        .interleaved = pointsArr coords crs) := by
  constructor
  · intro a pref
    rcases hcl : classifyKinds (a.rows.map Geometry.kind) with _ | k <;>
      simp [downcast, downcastRows, hcl]
  · exact fun coords crs h0 hlen => downcast_points_cast pad coords crs h0 hlen

/-- Witness for C9 at a concrete point array with CRS EPSG:4326. -/
theorem downcast_carries_crs_witness :
    (([[1, 2]] : List (List Nat)) ≠ [] ∧
      (∀ c ∈ ([[1, 2]] : List (List Nat)), c.length = 2)) ∧
    downcast 0
        (castArr (pointsArr ([[1, 2]] : List (List Nat)) (some "EPSG:4326"))
          (geometryT .interleaved (some "EPSG:4326") none)) .interleaved =
      pointsArr ([[1, 2]] : List (List Nat)) (some "EPSG:4326") ∧
    (downcast 0
        (castArr (pointsArr ([[1, 2]] : List (List Nat)) (some "EPSG:4326"))
          (geometryT .interleaved (some "EPSG:4326") none))
        .interleaved).typ.crs =
      (castArr (pointsArr ([[1, 2]] : List (List Nat)) (some "EPSG:4326"))
        (geometryT .interleaved (some "EPSG:4326") none)).typ.crs :=
  ⟨⟨by simp, by decide⟩,
    (downcast_carries_crs 0).2 [[1, 2]] (some "EPSG:4326") (by simp)
      (by decide),
    ((downcast_carries_crs 0).1
      (castArr (pointsArr ([[1, 2]] : List (List Nat)) (some "EPSG:4326"))
        (geometryT .interleaved (some "EPSG:4326") none)) .interleaved).1⟩

/-! ### from_shapely

Modelled from the spec (§7 UnsupportedGeometryCombination) and the
interop tests: the ragged/native method needs a single-type classification
of the input kinds, while the wkb method serializes through WKB. -/

/-- The quiet-NaN bit pattern used as the defined padding value. -/
def nanBits : Nat := 0x7ff8000000000000

/-- from_shapely with method ragged: build the native single-type array,
failing when the kind combination has no single-type representation. -/
def fromShapelyRagged (geoms : List (Geometry Nat)) :
    Except String (GeoArray Nat) :=
  match downcastRows nanBits geoms with
  | (some k, dj, rows) => .ok ⟨⟨k, some dj, some .interleaved, none, none⟩, rows⟩
  | (none, _, _) => .error "This geometry type combination is not supported"

/-- Array-level from_wkb: parse every element and tag the result with the
generic Geometry descriptor. -/
def fromWkbGeoArray (bss : List (List Nat)) : Option (GeoArray Nat) :=
  (fromWkbArr bss).map (fun rows => ⟨geometryT .separated none none, rows⟩)

/-- from_shapely with method wkb: encode each geometry to WKB and parse
the buffers back. -/
def fromShapelyWkb (geoms : List (Geometry Nat)) : Option (GeoArray Nat) :=
  fromWkbGeoArray (geoms.map wkbSerGeom)

/-- Claim C8: on an input whose kinds have no single-type representation,
from_shapely with method ragged errors stating the type combination is
not supported, while method wkb succeeds, equals from_wkb of the
WKB-encoded geometries, and recovers the rows. -/
theorem from_shapely_mixed_kinds (geoms : List (Geometry Nat))
    (hwf : ∀ g ∈ geoms, wkbGeomWF g = true)
    (hmix : classifyKinds (geoms.map Geometry.kind) = none) :
    fromShapelyRagged geoms =
      .error "This geometry type combination is not supported" ∧
    fromShapelyWkb geoms = fromWkbGeoArray (toWkbArr geoms) ∧
    fromShapelyWkb geoms = some ⟨geometryT .separated none none, geoms⟩ := by
  refine ⟨?_, rfl, ?_⟩
  · simp [fromShapelyRagged, downcastRows, hmix]
  · have h := fromWkbArr_toWkbArr geoms hwf
    simp [fromShapelyWkb, fromWkbGeoArray, toWkbArr] at h ⊢
    simp [h]

/-- Witness for C8 at one polygon row plus one point row. -/
theorem from_shapely_mixed_kinds_witness :
    ((∀ g ∈ ([Geometry.polygon .xy [[[0, 0], [2, 0], [2, 3], [0, 0]]],
        Geometry.point .xy [2, 3]] : List (Geometry Nat)),
        wkbGeomWF g = true) ∧
      classifyKinds
        (([Geometry.polygon .xy [[[0, 0], [2, 0], [2, 3], [0, 0]]],
          Geometry.point .xy [2, 3]] : List (Geometry Nat)).map
          Geometry.kind) = none) ∧
    fromShapelyRagged
        [Geometry.polygon .xy [[[0, 0], [2, 0], [2, 3], [0, 0]]],
         Geometry.point .xy [2, 3]] =
      .error "This geometry type combination is not supported" :=
  ⟨⟨by decide, by decide⟩,
    (from_shapely_mixed_kinds
      [Geometry.polygon .xy [[[0, 0], [2, 0], [2, 3], [0, 0]]],
       Geometry.point .xy [2, 3]] (by decide) (by decide)).1⟩

/-! ### WKT codec

Modelled from the spec (§4.5, the Rust codec itself is not in the visible
source tree): a recursive-descent grammar over standard WKT with optional
Z/M/ZM tags and EMPTY bodies, insignificant whitespace between tokens, and
numeric tokens kept verbatim.  Whitespace normalization is re-rendering
the token stream with the serializer's canonical spacing. -/

/-- WKT tokens: parentheses, comma, keywords and numeric literals. -/
inductive Tok where
  | lparen | rparen | comma
  | word (s : String)
  | num (s : String)
deriving DecidableEq

/-- Whitespace characters, insignificant between tokens. -/
def wsChar (c : Char) : Bool :=
  c = ' ' || c = '\t' || c = '\n' || c = '\r'

/-- Keyword characters (upper-case letters). -/
def alphaChar (c : Char) : Bool :=
  65 ≤ c.toNat && c.toNat ≤ 90

/-- Characters that may continue a numeric token. -/
def numChar (c : Char) : Bool :=
  (48 ≤ c.toNat && c.toNat ≤ 57) || c = '.' || c = '-' || c = '+' ||
    c = 'e' || c = 'E'

/-- Characters that may start a numeric token. -/
def numStart (c : Char) : Bool :=
  (48 ≤ c.toNat && c.toNat ≤ 57) || c = '.' || c = '-' || c = '+'

/-- Fueled lexer: skip whitespace, single-character tokens, maximal
keyword and number runs. -/
def lexWktF : Nat → List Char → Option (List Tok)
  | 0, _ => none
  | _ + 1, [] => some []
  | fuel + 1, c :: cs =>
    if wsChar c then lexWktF fuel cs
    else if c = '(' then (lexWktF fuel cs).map (.lparen :: ·)
    else if c = ')' then (lexWktF fuel cs).map (.rparen :: ·)
    else if c = ',' then (lexWktF fuel cs).map (.comma :: ·)
    else if alphaChar c then
      (lexWktF fuel (cs.dropWhile alphaChar)).map
        (.word (String.mk (c :: cs.takeWhile alphaChar)) :: ·)
    else if numStart c then
      (lexWktF fuel (cs.dropWhile numChar)).map
        (.num (String.mk (c :: cs.takeWhile numChar)) :: ·)
    else none

/-- Lex a WKT character sequence. -/
def lexWkt (cs : List Char) : Option (List Tok) :=
  lexWktF (cs.length + 1) cs

/-- The text of one token. -/
def tokText : Tok → List Char
  | .lparen => ['(']
  | .rparen => [')']
  | .comma => [',']
  | .word s => s.data
  | .num s => s.data

/-- Canonical spacing between adjacent tokens: space after a comma and
between adjacent words/numbers; none around parentheses otherwise. -/
def needSpace (a b : Tok) : Bool :=
  match a, b with
  | .lparen, _ => false
  | .comma, _ => true
  | _, .lparen => false
  | _, .rparen => false
  | _, .comma => false
  | _, _ => true

/-- Render a token stream with canonical spacing. -/
def renderToks : List Tok → List Char
  | [] => []
  | [t] => tokText t
  | t :: t2 :: rest =>
    tokText t ++
      (if needSpace t t2 then ' ' :: renderToks (t2 :: rest)
       else renderToks (t2 :: rest))

/-- Whitespace normalization of WKT text: re-render its token stream with
canonical spacing (unlexable text is left unchanged). -/
def wktNormalize (cs : List Char) : List Char :=
  match lexWkt cs with
  | some toks => renderToks toks
  | none => cs

/-- Serialize one coordinate as adjacent numeric tokens. -/
def serCoordTok (c : List String) : List Tok :=
  c.map Tok.num

/-- Comma-separate a list of token runs. -/
def sepByComma : List (List Tok) → List Tok
  | [] => []
  | [x] => x
  | x :: y :: rest => x ++ .comma :: sepByComma (y :: rest)

/-- A parenthesized comma-separated body, or the EMPTY keyword for zero
items. -/
def parenOrEmpty (items : List (List Tok)) : List Tok :=
  match items with
  | [] => [.word "EMPTY"]
  | _ :: _ => .lparen :: (sepByComma items ++ [.rparen])

/-- One parenthesized ring: a comma-separated coordinate list. -/
def serRingTok (r : List (List String)) : List Tok :=
  .lparen :: (sepByComma (r.map serCoordTok) ++ [.rparen])

/-- One parenthesized polygon body inside a multipolygon. -/
def serPolyTok (p : List (List (List String))) : List Tok :=
  .lparen :: (sepByComma (p.map serRingTok) ++ [.rparen])

/-- The dimension-tag tokens after the kind keyword. -/
def dimTagToks : Dim → List Tok
  | .xy => []
  | .xyz => [.word "Z"]
  | .xym => [.word "M"]
  | .xyzm => [.word "ZM"]

mutual
def serGeomTok : Geometry String → List Tok
  | .point d c =>
      .word "POINT" :: (dimTagToks d ++
        (match c with
         | [] => [.word "EMPTY"]
         | _ :: _ => .lparen :: (serCoordTok c ++ [.rparen])))
  | .linestring d cs =>
      .word "LINESTRING" :: (dimTagToks d ++
        parenOrEmpty (cs.map serCoordTok))
  | .polygon d rs =>
      .word "POLYGON" :: (dimTagToks d ++ parenOrEmpty (rs.map serRingTok))
  | .multipoint d ps =>
      .word "MULTIPOINT" :: (dimTagToks d ++
        parenOrEmpty (ps.map serCoordTok))
  | .multilinestring d ls =>
      .word "MULTILINESTRING" :: (dimTagToks d ++
        parenOrEmpty (ls.map serRingTok))
  | .multipolygon d pp =>
      .word "MULTIPOLYGON" :: (dimTagToks d ++
        parenOrEmpty (pp.map serPolyTok))
  | .geometrycollection d gs =>
      .word "GEOMETRYCOLLECTION" :: (dimTagToks d ++
        (match gs with
         | .nil => [.word "EMPTY"]
         | .cons g tl =>
           .lparen :: (serGeomTok g ++ serGeomTailToks tl ++ [.rparen])))
def serGeomTailToks : GeomList String → List Tok
  | .nil => []
  | .cons g tl => .comma :: (serGeomTok g ++ serGeomTailToks tl)
end

/-- Keyword to geometry kind. -/
def kindOfKw (w : String) : Option GKind :=
  if w = "POINT" then some .point
  else if w = "LINESTRING" then some .linestring
  else if w = "POLYGON" then some .polygon
  else if w = "MULTIPOINT" then some .multipoint
  else if w = "MULTILINESTRING" then some .multilinestring
  else if w = "MULTIPOLYGON" then some .multipolygon
  else if w = "GEOMETRYCOLLECTION" then some .geometrycollection
  else none

/-- Read an optional Z/M/ZM dimension tag. -/
def parseDimTag : List Tok → Dim × List Tok
  | .word w :: r =>
    if w = "Z" then (.xyz, r)
    else if w = "M" then (.xym, r)
    else if w = "ZM" then (.xyzm, r)
    else (.xy, .word w :: r)
  | toks => (.xy, toks)

/-- Read a fixed number of numeric tokens. -/
def parseNNums : Nat → List Tok → Option (List String × List Tok)
  | 0, toks => some ([], toks)
  | n + 1, .num s :: r =>
    match parseNNums n r with
    | none => none
    | some (c, r1) => some (s :: c, r1)
  | _ + 1, _ => none

/-- Read one coordinate of the given dimension. -/
def parseCoordTok (d : Dim) (toks : List Tok) :
    Option (List String × List Tok) :=
  parseNNums d.size toks

/-- Read the comma-continued tail of a separated list. -/
def sepTail {β : Type} (p : List Tok → Option (β × List Tok)) :
    Nat → List Tok → Option (List β × List Tok)
  | fuel + 1, .comma :: r =>
    match p r with
    | none => none
    | some (b, r1) =>
      match sepTail p fuel r1 with
      | none => none
      | some (bs, r2) => some (b :: bs, r2)
  | 0, .comma :: _ => none
  | _, toks => some ([], toks)

/-- Read a nonempty comma-separated list. -/
def sepOne {β : Type} (p : List Tok → Option (β × List Tok)) (fuel : Nat)
    (toks : List Tok) : Option (List β × List Tok) :=
  match p toks with
  | none => none
  | some (b, r) =>
    match sepTail p fuel r with
    | none => none
    | some (bs, r2) => some (b :: bs, r2)

/-- Read a parenthesized nonempty comma-separated list. -/
def parenList {β : Type} (p : List Tok → Option (β × List Tok)) (fuel : Nat)
    (toks : List Tok) : Option (List β × List Tok) :=
  match toks with
  | .lparen :: r =>
    match sepOne p fuel r with
    | none => none
    | some (bs, r1) =>
      match r1 with
      | .rparen :: r2 => some (bs, r2)
      | _ => none
  | _ => none

/-- Read a parenthesized comma-separated list or the EMPTY keyword. -/
def parenEmptyList {β : Type} (p : List Tok → Option (β × List Tok))
    (fuel : Nat) (toks : List Tok) : Option (List β × List Tok) :=
  match toks with
  | .word w :: r =>
    if w = "EMPTY" then some ([], r) else none
  | .lparen :: r =>
    match sepOne p fuel r with
    | none => none
    | some (bs, r1) =>
      match r1 with
      | .rparen :: r2 => some (bs, r2)
      | _ => none
  | _ => none

/-- Read one parenthesized ring. -/
def parseRingTok (d : Dim) (fuel : Nat) (toks : List Tok) :
    Option (List (List String) × List Tok) :=
  parenList (parseCoordTok d) fuel toks

/-- Read one parenthesized polygon body (inside a multipolygon). -/
def parsePolyTok (d : Dim) (fuel : Nat) (toks : List Tok) :
    Option (List (List (List String)) × List Tok) :=
  parenList (parseRingTok d fuel) fuel toks

mutual
def parseGeomTok : Nat → List Tok → Option (Geometry String × List Tok)
  | 0, _ => none
  | fuel + 1, .word w :: rest =>
    match kindOfKw w with
    | none => none
    | some k =>
      match parseDimTag rest with
      | (d, rest2) =>
        match k with
        | .point =>
          match rest2 with
          | .word w2 :: r =>
            if w2 = "EMPTY" then some (.point d [], r) else none
          | .lparen :: r =>
            match parseNNums d.size r with
            | none => none
            | some (c, r1) =>
              match r1 with
              | .rparen :: r2 => some (.point d c, r2)
              | _ => none
          | _ => none
        | .linestring =>
          match parenEmptyList (parseCoordTok d) fuel rest2 with
          | none => none
          | some (cs, r1) => some (.linestring d cs, r1)
        | .polygon =>
          match parenEmptyList (parseRingTok d fuel) fuel rest2 with
          | none => none
          | some (rs, r1) => some (.polygon d rs, r1)
        | .multipoint =>
          match parenEmptyList (parseCoordTok d) fuel rest2 with
          | none => none
          | some (ps, r1) => some (.multipoint d ps, r1)
        | .multilinestring =>
          match parenEmptyList (parseRingTok d fuel) fuel rest2 with
          | none => none
          | some (ls, r1) => some (.multilinestring d ls, r1)
        | .multipolygon =>
          match parenEmptyList (parsePolyTok d fuel) fuel rest2 with
          | none => none
          | some (pp, r1) => some (.multipolygon d pp, r1)
        | .geometrycollection =>
          match rest2 with
          | .word w2 :: r =>
            if w2 = "EMPTY" then some (.geometrycollection d .nil, r)
            else none
          | .lparen :: r =>
            match parseGeomSepList fuel r with
            | none => none
            | some (gs, r1) =>
              match r1 with
              | .rparen :: r2 => some (.geometrycollection d gs, r2)
              | _ => none
          | _ => none
        | _ => none
  | _ + 1, _ => none
def parseGeomSepList : Nat → List Tok → Option (GeomList String × List Tok)
  | 0, _ => none
  | fuel + 1, toks =>
    match parseGeomTok fuel toks with
    | none => none
    | some (g, r) =>
      match parseGeomTailList fuel r with
      | none => none
      | some (tl, r1) => some (.cons g tl, r1)
def parseGeomTailList : Nat → List Tok → Option (GeomList String × List Tok)
  | 0, _ => none
  | fuel + 1, .comma :: r =>
    match parseGeomTok fuel r with
    | none => none
    | some (g, r1) =>
      match parseGeomTailList fuel r1 with
      | none => none
      | some (tl, r2) => some (.cons g tl, r2)
  | _ + 1, toks => some (.nil, toks)
end

/-- Serialize one geometry to WKT text. -/
def toWktElement (g : Geometry String) : List Char :=
  renderToks (serGeomTok g)

/-- Parse one WKT string as one geometry, requiring the whole token stream
to be consumed. -/
def fromWktElement (cs : List Char) : Option (Geometry String) :=
  match lexWkt cs with
  | none => none
  | some toks =>
    match parseGeomTok (toks.length + 1) toks with
    | some (g, []) => some g
    | _ => none

/-- Serialize a geometry array to per-element WKT strings (to_wkt). -/
def toWktArr (gs : List (Geometry String)) : List (List Char) :=
  gs.map toWktElement

/-- Parse per-element WKT strings (from_wkt); a single malformed element
fails the whole call. -/
def fromWktArr : List (List Char) → Option (List (Geometry String))
  | [] => some []
  | cs :: css =>
    match fromWktElement cs with
    | none => none
    | some g =>
      match fromWktArr css with
      | none => none
      | some gs => some (g :: gs)

/-! ### WKT parser completeness: an accepted token stream is exactly the
serialization of its parse -/

theorem parseNNums_complete :
    ∀ (n : Nat) (toks : List Tok) (c : List String) (r : List Tok),
      parseNNums n toks = some (c, r) → toks = c.map Tok.num ++ r := by
  intro n
  induction n with
  | zero =>
    intro toks c r h
    simp only [parseNNums, Option.some.injEq, Prod.mk.injEq] at h
    obtain ⟨rfl, rfl⟩ := h
    simp
  | succ m ih =>
    intro toks c r h
    cases toks with
    | nil => simp [parseNNums] at h
    | cons t ts =>
      cases t with
      | num s =>
        simp only [parseNNums] at h
        rcases h2 : parseNNums m ts with _ | ⟨c1, r1⟩ <;> rw [h2] at h
        · simp at h
        · simp only [Option.some.injEq, Prod.mk.injEq] at h
          obtain ⟨rfl, rfl⟩ := h
          simp [ih ts c1 r1 h2]
      | lparen => simp [parseNNums] at h
      | rparen => simp [parseNNums] at h
      | comma => simp [parseNNums] at h
      | word s => simp [parseNNums] at h

theorem parseCoordTok_complete (d : Dim) (toks : List Tok) (c : List String)
    (r : List Tok) (h : parseCoordTok d toks = some (c, r)) :
    toks = serCoordTok c ++ r :=
  parseNNums_complete d.size toks c r h

theorem parseNNums_length :
    ∀ (n : Nat) (toks : List Tok) (c : List String) (r : List Tok),
      parseNNums n toks = some (c, r) → c.length = n := by
  intro n
  induction n with
  | zero =>
    intro toks c r h
    simp only [parseNNums, Option.some.injEq, Prod.mk.injEq] at h
    obtain ⟨rfl, rfl⟩ := h
    rfl
  | succ m ih =>
    intro toks c r h
    cases toks with
    | nil => simp [parseNNums] at h
    | cons t ts =>
      cases t with
      | num s =>
        simp only [parseNNums] at h
        rcases h2 : parseNNums m ts with _ | ⟨c1, r1⟩ <;> rw [h2] at h
        · simp at h
        · simp only [Option.some.injEq, Prod.mk.injEq] at h
          obtain ⟨rfl, rfl⟩ := h
          simp [ih ts c1 r1 h2]
      | lparen => simp [parseNNums] at h
      | rparen => simp [parseNNums] at h
      | comma => simp [parseNNums] at h
      | word s => simp [parseNNums] at h

theorem sepByComma_cons (x : List Tok) (xs : List (List Tok)) :
    sepByComma (x :: xs) =
      x ++ (xs.map (fun e => Tok.comma :: e)).flatten := by
  induction xs generalizing x with
  | nil => simp [sepByComma]
  | cons y rest ih => simp [sepByComma, ih y]

theorem sepTail_complete {β : Type} (p : List Tok → Option (β × List Tok))
    (serE : β → List Tok)
    (hp : ∀ toks b r, p toks = some (b, r) → toks = serE b ++ r) :
    ∀ (fuel : Nat) (toks : List Tok) (bs : List β) (r : List Tok),
      sepTail p fuel toks = some (bs, r) →
      toks = (bs.map (fun b => Tok.comma :: serE b)).flatten ++ r := by
  intro fuel
  induction fuel with
  | zero =>
    intro toks bs r h
    cases toks with
    | nil =>
      simp only [sepTail, Option.some.injEq, Prod.mk.injEq] at h
      obtain ⟨rfl, rfl⟩ := h
      simp
    | cons t ts =>
      cases t with
      | comma => simp [sepTail] at h
      | lparen =>
        simp only [sepTail, Option.some.injEq, Prod.mk.injEq] at h
        obtain ⟨rfl, rfl⟩ := h
        simp
      | rparen =>
        simp only [sepTail, Option.some.injEq, Prod.mk.injEq] at h
        obtain ⟨rfl, rfl⟩ := h
        simp
      | word s =>
        simp only [sepTail, Option.some.injEq, Prod.mk.injEq] at h
        obtain ⟨rfl, rfl⟩ := h
        simp
      | num s =>
        simp only [sepTail, Option.some.injEq, Prod.mk.injEq] at h
        obtain ⟨rfl, rfl⟩ := h
        simp
  | succ f ih =>
    intro toks bs r h
    cases toks with
    | nil =>
      simp only [sepTail, Option.some.injEq, Prod.mk.injEq] at h
      obtain ⟨rfl, rfl⟩ := h
      simp
    | cons t ts =>
      cases t with
      | comma =>
        simp only [sepTail] at h
        rcases h2 : p ts with _ | ⟨b, r1⟩ <;> rw [h2] at h <;>
          dsimp only at h
        · simp at h
        · rcases h3 : sepTail p f r1 with _ | ⟨bs1, r2⟩ <;> rw [h3] at h <;>
            dsimp only at h
          · simp at h
          · simp only [Option.some.injEq, Prod.mk.injEq] at h
            obtain ⟨rfl, rfl⟩ := h
            have e1 := hp ts b r1 h2
            have e2 := ih r1 bs1 r2 h3
            simp [e1, e2]
      | lparen =>
        simp only [sepTail, Option.some.injEq, Prod.mk.injEq] at h
        obtain ⟨rfl, rfl⟩ := h
        simp
      | rparen =>
        simp only [sepTail, Option.some.injEq, Prod.mk.injEq] at h
        obtain ⟨rfl, rfl⟩ := h
        simp
      | word s =>
        simp only [sepTail, Option.some.injEq, Prod.mk.injEq] at h
        obtain ⟨rfl, rfl⟩ := h
        simp
      | num s =>
        simp only [sepTail, Option.some.injEq, Prod.mk.injEq] at h
        obtain ⟨rfl, rfl⟩ := h
        simp

theorem sepOne_complete {β : Type} (p : List Tok → Option (β × List Tok))
    (serE : β → List Tok)
    (hp : ∀ toks b r, p toks = some (b, r) → toks = serE b ++ r)
    (fuel : Nat) (toks : List Tok) (bs : List β) (r : List Tok)
    (h : sepOne p fuel toks = some (bs, r)) :
    toks = sepByComma (bs.map serE) ++ r ∧ bs ≠ [] := by
  simp only [sepOne] at h
  rcases h2 : p toks with _ | ⟨b, r1⟩ <;> rw [h2] at h <;> dsimp only at h
  · simp at h
  · rcases h3 : sepTail p fuel r1 with _ | ⟨bs1, r2⟩ <;> rw [h3] at h <;>
      dsimp only at h
    · simp at h
    · simp only [Option.some.injEq, Prod.mk.injEq] at h
      obtain ⟨rfl, rfl⟩ := h
      have e1 := hp toks b r1 h2
      have e2 := sepTail_complete p serE hp fuel r1 bs1 r2 h3
      refine ⟨?_, by simp⟩
      rw [List.map_cons, sepByComma_cons, List.map_map]
      simp [e1, e2, Function.comp_def]

theorem parenList_complete {β : Type} (p : List Tok → Option (β × List Tok))
    (serE : β → List Tok)
    (hp : ∀ toks b r, p toks = some (b, r) → toks = serE b ++ r)
    (fuel : Nat) (toks : List Tok) (bs : List β) (r : List Tok)
    (h : parenList p fuel toks = some (bs, r)) :
    toks = .lparen :: (sepByComma (bs.map serE) ++ [.rparen]) ++ r := by
  cases toks with
  | nil => simp [parenList] at h
  | cons t ts =>
    cases t with
    | lparen =>
      simp only [parenList] at h
      rcases h2 : sepOne p fuel ts with _ | ⟨bs1, r1⟩ <;> rw [h2] at h <;>
        dsimp only at h
      · simp at h
      · cases r1 with
        | nil => simp at h
        | cons t1 r2 =>
          cases t1 with
          | rparen =>
            simp only [Option.some.injEq, Prod.mk.injEq] at h
            obtain ⟨rfl, rfl⟩ := h
            have e := (sepOne_complete p serE hp fuel ts bs1
              (Tok.rparen :: r2) h2).1
            simp [e]
          | lparen => simp at h
          | comma => simp at h
          | word s => simp at h
          | num s => simp at h
    | rparen => simp [parenList] at h
    | comma => simp [parenList] at h
    | word s => simp [parenList] at h
    | num s => simp [parenList] at h

theorem parenEmptyList_complete {β : Type}
    (p : List Tok → Option (β × List Tok)) (serE : β → List Tok)
    (hp : ∀ toks b r, p toks = some (b, r) → toks = serE b ++ r)
    (fuel : Nat) (toks : List Tok) (bs : List β) (r : List Tok)
    (h : parenEmptyList p fuel toks = some (bs, r)) :
    toks = parenOrEmpty (bs.map serE) ++ r := by
  cases toks with
  | nil => simp [parenEmptyList] at h
  | cons t ts =>
    cases t with
    | word w =>
      simp only [parenEmptyList] at h
      by_cases hw : w = "EMPTY"
      · rw [if_pos hw] at h
        simp only [Option.some.injEq, Prod.mk.injEq] at h
        obtain ⟨rfl, rfl⟩ := h
        simp [parenOrEmpty, hw]
      · rw [if_neg hw] at h
        simp at h
    | lparen =>
      simp only [parenEmptyList] at h
      rcases h2 : sepOne p fuel ts with _ | ⟨bs1, r1⟩ <;> rw [h2] at h <;>
        dsimp only at h
      · simp at h
      · cases r1 with
        | nil => simp at h
        | cons t1 r2 =>
          cases t1 with
          | rparen =>
            simp only [Option.some.injEq, Prod.mk.injEq] at h
            obtain ⟨rfl, rfl⟩ := h
            obtain ⟨e, hne⟩ := sepOne_complete p serE hp fuel ts bs1
              (Tok.rparen :: r2) h2
            cases bs1 with
            | nil => exact absurd rfl hne
            | cons b bs2 => simp [parenOrEmpty, e]
          | lparen => simp at h
          | comma => simp at h
          | word s => simp at h
          | num s => simp at h
    | rparen => simp [parenEmptyList] at h
    | comma => simp [parenEmptyList] at h
    | num s => simp [parenEmptyList] at h

theorem parseRingTok_complete (d : Dim) (fuel : Nat) (toks : List Tok)
    (rg : List (List String)) (r : List Tok)
    (h : parseRingTok d fuel toks = some (rg, r)) :
    toks = serRingTok rg ++ r := by
  have e := parenList_complete (parseCoordTok d) serCoordTok
    (parseCoordTok_complete d) fuel toks rg r h
  simp [serRingTok, e]

theorem parsePolyTok_complete (d : Dim) (fuel : Nat) (toks : List Tok)
    (p : List (List (List String))) (r : List Tok)
    (h : parsePolyTok d fuel toks = some (p, r)) :
    toks = serPolyTok p ++ r := by
  have e := parenList_complete (parseRingTok d fuel) serRingTok
    (parseRingTok_complete d fuel) fuel toks p r h
  simp [serPolyTok, e]

theorem parseDimTag_complete (toks : List Tok) (d : Dim) (r : List Tok)
    (h : parseDimTag toks = (d, r)) : toks = dimTagToks d ++ r := by
  cases toks with
  | nil =>
    simp only [parseDimTag, Prod.mk.injEq] at h
    obtain ⟨rfl, rfl⟩ := h
    simp [dimTagToks]
  | cons t ts =>
    cases t with
    | word w =>
      simp only [parseDimTag] at h
      by_cases h1 : w = "Z"
      · rw [if_pos h1] at h
        simp only [Prod.mk.injEq] at h
        obtain ⟨rfl, rfl⟩ := h
        simp [dimTagToks, h1]
      · rw [if_neg h1] at h
        by_cases h2 : w = "M"
        · rw [if_pos h2] at h
          simp only [Prod.mk.injEq] at h
          obtain ⟨rfl, rfl⟩ := h
          simp [dimTagToks, h2]
        · rw [if_neg h2] at h
          by_cases h3 : w = "ZM"
          · rw [if_pos h3] at h
            simp only [Prod.mk.injEq] at h
            obtain ⟨rfl, rfl⟩ := h
            simp [dimTagToks, h3]
          · rw [if_neg h3] at h
            simp only [Prod.mk.injEq] at h
            obtain ⟨rfl, rfl⟩ := h
            simp [dimTagToks]
    | lparen =>
      simp only [parseDimTag, Prod.mk.injEq] at h
      obtain ⟨rfl, rfl⟩ := h
      simp [dimTagToks]
    | rparen =>
      simp only [parseDimTag, Prod.mk.injEq] at h
      obtain ⟨rfl, rfl⟩ := h
      simp [dimTagToks]
    | comma =>
      simp only [parseDimTag, Prod.mk.injEq] at h
      obtain ⟨rfl, rfl⟩ := h
      simp [dimTagToks]
    | num s =>
      simp only [parseDimTag, Prod.mk.injEq] at h
      obtain ⟨rfl, rfl⟩ := h
      simp [dimTagToks]

theorem kindOfKw_inv (w : String) (k : GKind) (h : kindOfKw w = some k) :
    (k = .point ∧ w = "POINT") ∨ (k = .linestring ∧ w = "LINESTRING") ∨
    (k = .polygon ∧ w = "POLYGON") ∨ (k = .multipoint ∧ w = "MULTIPOINT") ∨
    (k = .multilinestring ∧ w = "MULTILINESTRING") ∨
    (k = .multipolygon ∧ w = "MULTIPOLYGON") ∨
    (k = .geometrycollection ∧ w = "GEOMETRYCOLLECTION") := by
  simp only [kindOfKw] at h
  split_ifs at h with h1 h2 h3 h4 h5 h6 h7 <;>
    simp_all

theorem wkt_complete_main (fuel : Nat) :
    (∀ toks g r, parseGeomTok fuel toks = some (g, r) →
      toks = serGeomTok g ++ r) ∧
    (∀ toks gs r, parseGeomSepList fuel toks = some (gs, r) →
      ∃ g tl, gs = .cons g tl ∧
        toks = serGeomTok g ++ (serGeomTailToks tl ++ r)) ∧
    (∀ toks tl r, parseGeomTailList fuel toks = some (tl, r) →
      toks = serGeomTailToks tl ++ r) := by
  induction fuel with
  | zero =>
    refine ⟨?_, ?_, ?_⟩
    · intro toks g r h
      simp [parseGeomTok] at h
    · intro toks gs r h
      simp [parseGeomSepList] at h
    · intro toks tl r h
      simp [parseGeomTailList] at h
  | succ f ih =>
    refine ⟨?_, ?_, ?_⟩
    · intro toks g r h
      cases toks with
      | nil => simp [parseGeomTok] at h
      | cons t ts =>
        cases t with
        | lparen => simp [parseGeomTok] at h
        | rparen => simp [parseGeomTok] at h
        | comma => simp [parseGeomTok] at h
        | num s => simp [parseGeomTok] at h
        | word w =>
          simp only [parseGeomTok] at h
          rcases hk : kindOfKw w with _ | k <;> rw [hk] at h <;>
            dsimp only at h
          · simp at h
          · rcases hdt : parseDimTag ts with ⟨d, rest2⟩
            rw [hdt] at h
            dsimp only at h
            have e1 := parseDimTag_complete ts d rest2 hdt
            cases k with
            | point =>
              have hw : w = "POINT" := by
                have := kindOfKw_inv w _ hk
                simpa using this
              cases rest2 with
              | nil => simp at h
              | cons t2 r0 =>
                cases t2 with
                | lparen =>
                  dsimp only at h
                  rcases hn : parseNNums d.size r0 with _ | ⟨c, r1⟩ <;>
                    rw [hn] at h <;> dsimp only at h
                  · simp at h
                  · cases r1 with
                    | nil => simp at h
                    | cons t3 r2 =>
                      cases t3 with
                      | rparen =>
                        obtain ⟨rfl, rfl⟩ :
                            Geometry.point d c = g ∧ r2 = r := by
                          simpa using h
                        have hlen := parseNNums_length d.size r0 c
                          (.rparen :: r2) hn
                        cases c with
                        | nil => cases d <;> simp [Dim.size] at hlen
                        | cons c0 ctl =>
                          have e2 := parseNNums_complete d.size r0 (c0 :: ctl)
                            (.rparen :: r2) hn
                          simp [serGeomTok, hw, e1, e2, serCoordTok]
                      | lparen => simp at h
                      | comma => simp at h
                      | word s => simp at h
                      | num s => simp at h
                | rparen => simp at h
                | comma => simp at h
                | word w2 =>
                  dsimp only at h
                  by_cases hw2 : w2 = "EMPTY"
                  · rw [if_pos hw2] at h
                    obtain ⟨rfl, rfl⟩ :
                        Geometry.point d [] = g ∧ r0 = r := by simpa using h
                    simp [serGeomTok, hw, hw2, e1]
                  · rw [if_neg hw2] at h
                    simp at h
                | num s => simp at h
            | linestring =>
              have hw : w = "LINESTRING" := by
                have := kindOfKw_inv w _ hk
                simpa using this
              rcases hb : parenEmptyList (parseCoordTok d) f rest2 with
                  _ | ⟨cs, r1⟩ <;> rw [hb] at h <;> dsimp only at h
              · simp at h
              · obtain ⟨rfl, rfl⟩ :
                    Geometry.linestring d cs = g ∧ r1 = r := by simpa using h
                have e2 := parenEmptyList_complete (parseCoordTok d)
                  serCoordTok (parseCoordTok_complete d) f rest2 cs r1 hb
                simp [serGeomTok, hw, e1, e2]
            | polygon =>
              have hw : w = "POLYGON" := by
                have := kindOfKw_inv w _ hk
                simpa using this
              rcases hb : parenEmptyList (parseRingTok d f) f rest2 with
                  _ | ⟨rs, r1⟩ <;> rw [hb] at h <;> dsimp only at h
              · simp at h
              · obtain ⟨rfl, rfl⟩ :
                    Geometry.polygon d rs = g ∧ r1 = r := by simpa using h
                have e2 := parenEmptyList_complete (parseRingTok d f)
                  serRingTok (parseRingTok_complete d f) f rest2 rs r1 hb
                simp [serGeomTok, hw, e1, e2]
            | multipoint =>
              have hw : w = "MULTIPOINT" := by
                have := kindOfKw_inv w _ hk
                simpa using this
              rcases hb : parenEmptyList (parseCoordTok d) f rest2 with
                  _ | ⟨ps, r1⟩ <;> rw [hb] at h <;> dsimp only at h
              · simp at h
              · obtain ⟨rfl, rfl⟩ :
                    Geometry.multipoint d ps = g ∧ r1 = r := by simpa using h
                have e2 := parenEmptyList_complete (parseCoordTok d)
                  serCoordTok (parseCoordTok_complete d) f rest2 ps r1 hb
                simp [serGeomTok, hw, e1, e2]
            | multilinestring =>
              have hw : w = "MULTILINESTRING" := by
                have := kindOfKw_inv w _ hk
                simpa using this
              rcases hb : parenEmptyList (parseRingTok d f) f rest2 with
                  _ | ⟨ls, r1⟩ <;> rw [hb] at h <;> dsimp only at h
              · simp at h
              · obtain ⟨rfl, rfl⟩ :
                    Geometry.multilinestring d ls = g ∧ r1 = r := by
                  simpa using h
                have e2 := parenEmptyList_complete (parseRingTok d f)
                  serRingTok (parseRingTok_complete d f) f rest2 ls r1 hb
                simp [serGeomTok, hw, e1, e2]
            | multipolygon =>
              have hw : w = "MULTIPOLYGON" := by
                have := kindOfKw_inv w _ hk
                simpa using this
              rcases hb : parenEmptyList (parsePolyTok d f) f rest2 with
                  _ | ⟨pp, r1⟩ <;> rw [hb] at h <;> dsimp only at h
              · simp at h
              · obtain ⟨rfl, rfl⟩ :
                    Geometry.multipolygon d pp = g ∧ r1 = r := by
                  simpa using h
                have e2 := parenEmptyList_complete (parsePolyTok d f)
                  serPolyTok (parsePolyTok_complete d f) f rest2 pp r1 hb
                simp [serGeomTok, hw, e1, e2]
            | geometrycollection =>
              have hw : w = "GEOMETRYCOLLECTION" := by
                have := kindOfKw_inv w _ hk
                simpa using this
              cases rest2 with
              | nil => simp at h
              | cons t2 r0 =>
                cases t2 with
                | word w2 =>
                  dsimp only at h
                  by_cases hw2 : w2 = "EMPTY"
                  · rw [if_pos hw2] at h
                    obtain ⟨rfl, rfl⟩ :
                        Geometry.geometrycollection d .nil = g ∧ r0 = r := by
                      simpa using h
                    simp [serGeomTok, hw, hw2, e1]
                  · rw [if_neg hw2] at h
                    simp at h
                | lparen =>
                  dsimp only at h
                  rcases hs : parseGeomSepList f r0 with _ | ⟨gs, r1⟩ <;>
                    rw [hs] at h <;> dsimp only at h
                  · simp at h
                  · cases r1 with
                    | nil => simp at h
                    | cons t3 r2 =>
                      cases t3 with
                      | rparen =>
                        obtain ⟨rfl, rfl⟩ :
                            Geometry.geometrycollection d gs = g ∧ r2 = r := by
                          simpa using h
                        obtain ⟨g0, tl, rfl, e2⟩ :=
                          ih.2.1 r0 gs (.rparen :: r2) hs
                        simp [serGeomTok, hw, e1, e2]
                      | lparen => simp at h
                      | comma => simp at h
                      | word s => simp at h
                      | num s => simp at h
                | rparen => simp at h
                | comma => simp at h
                | num s => simp at h
            | box => simp at h
            | geometry => simp at h
            | wkb v => simp at h
            | wkt v => simp at h
    · intro toks gs r h
      simp only [parseGeomSepList] at h
      rcases h1 : parseGeomTok f toks with _ | ⟨g, r0⟩ <;> rw [h1] at h <;>
        dsimp only at h
      · simp at h
      · rcases h2 : parseGeomTailList f r0 with _ | ⟨tl, r1⟩ <;>
          rw [h2] at h <;> dsimp only at h
        · simp at h
        · obtain ⟨rfl, rfl⟩ : GeomList.cons g tl = gs ∧ r1 = r := by
            simpa using h
          refine ⟨g, tl, rfl, ?_⟩
          have e1 := ih.1 toks g r0 h1
          have e2 := ih.2.2 r0 tl r1 h2
          simp [e1, e2]
    · intro toks tl r h
      cases toks with
      | nil =>
        simp only [parseGeomTailList, Option.some.injEq, Prod.mk.injEq] at h
        obtain ⟨rfl, rfl⟩ := h
        simp [serGeomTailToks]
      | cons t ts =>
        cases t with
        | comma =>
          simp only [parseGeomTailList] at h
          rcases h1 : parseGeomTok f ts with _ | ⟨g, r0⟩ <;> rw [h1] at h <;>
            dsimp only at h
          · simp at h
          · rcases h2 : parseGeomTailList f r0 with _ | ⟨tl1, r1⟩ <;>
              rw [h2] at h <;> dsimp only at h
            · simp at h
            · obtain ⟨rfl, rfl⟩ : GeomList.cons g tl1 = tl ∧ r1 = r := by
                simpa using h
              have e1 := ih.1 ts g r0 h1
              have e2 := ih.2.2 r0 tl1 r1 h2
              simp [serGeomTailToks, e1, e2]
        | lparen =>
          simp only [parseGeomTailList, Option.some.injEq, Prod.mk.injEq] at h
          obtain ⟨rfl, rfl⟩ := h
          simp [serGeomTailToks]
        | rparen =>
          simp only [parseGeomTailList, Option.some.injEq, Prod.mk.injEq] at h
          obtain ⟨rfl, rfl⟩ := h
          simp [serGeomTailToks]
        | word s =>
          simp only [parseGeomTailList, Option.some.injEq, Prod.mk.injEq] at h
          obtain ⟨rfl, rfl⟩ := h
          simp [serGeomTailToks]
        | num s =>
          simp only [parseGeomTailList, Option.some.injEq, Prod.mk.injEq] at h
          obtain ⟨rfl, rfl⟩ := h
          simp [serGeomTailToks]

theorem fromWktElement_norm (cs : List Char) (g : Geometry String)
    (h : fromWktElement cs = some g) : toWktElement g = wktNormalize cs := by
  simp only [fromWktElement] at h
  rcases hl : lexWkt cs with _ | toks <;> rw [hl] at h <;> dsimp only at h
  · simp at h
  · rcases hp : parseGeomTok (toks.length + 1) toks with _ | ⟨g1, rest⟩ <;>
      rw [hp] at h
    · simp at h
    · cases rest with
      | cons t ts => simp at h
      | nil =>
        obtain rfl : g1 = g := by simpa using h
        have e := (wkt_complete_main (toks.length + 1)).1 toks g1 [] hp
        rw [List.append_nil] at e
        simp [toWktElement, wktNormalize, hl, e]

/-- Claim C3: for every valid WKT string array, serializing the parse
back (to_wkt of from_wkt) yields text denoting the same geometries, equal
to the input after whitespace normalization (re-rendering the token
stream with canonical spacing). -/
theorem wkt_round_trip_normalized (ts : List (List Char))
    (gs : List (Geometry String)) (h : fromWktArr ts = some gs) :
    toWktArr gs = ts.map wktNormalize := by
  induction ts generalizing gs with
  | nil =>
    obtain rfl : [] = gs := by simpa [fromWktArr] using h
    simp [toWktArr]
  | cons cs css ih =>
    simp only [fromWktArr] at h
    rcases h1 : fromWktElement cs with _ | g <;> rw [h1] at h <;>
      dsimp only at h
    · simp at h
    · rcases h2 : fromWktArr css with _ | gs1 <;> rw [h2] at h <;>
        dsimp only at h
      · simp at h
      · obtain rfl : g :: gs1 = gs := by simpa using h
        simp [toWktArr, List.map_cons, fromWktElement_norm cs g h1]
        have := ih gs1 h2
        simpa [toWktArr] using this

/-- Witness for C3 at the WKT texts POINT (1 2) and POINT EMPTY, whose
normalizations are POINT(1 2) and POINT EMPTY. -/
theorem wkt_round_trip_normalized_witness :
    fromWktArr ["POINT (1 2)".data, "POINT EMPTY".data] =
      some [Geometry.point .xy ["1", "2"], Geometry.point .xy []] ∧
    toWktArr [Geometry.point .xy ["1", "2"], Geometry.point .xy []] =
      ["POINT (1 2)".data, "POINT EMPTY".data].map wktNormalize :=
  ⟨rfl,
    wkt_round_trip_normalized ["POINT (1 2)".data, "POINT EMPTY".data]
      [Geometry.point .xy ["1", "2"], Geometry.point .xy []] rfl⟩

/-! ### Lazy chunked readers

Modelled from the spec (§4.2: building from WKB/WKT input is lazy; type
identification must not require parsing coordinates up front) and the
chunked-reader tests: from_wkb/from_wkt on stream input returns a reader
of the requested type without touching the chunks; parsing and the
geometry-type check happen only when an array is read. -/

/-- A lazy geometry-array reader: the requested type and the not yet
parsed chunks. -/
structure GeoArrayReader (β : Type) where
  typ : GeoArrowType
  chunks : List (List β)

/-- from_wkb on chunked input with a target type: no parsing happens. -/
def fromWkbChunked (chunks : List (List (List Nat))) (target : GeoArrowType) :
    GeoArrayReader (List Nat) :=
  ⟨target, chunks⟩

/-- from_wkt on chunked input with a target type: no parsing happens. -/
def fromWktChunked (chunks : List (List (List Char))) (target : GeoArrowType) :
    GeoArrayReader (List Char) :=
  ⟨target, chunks⟩

/-- Whether one parsed row can be represented at the requested type. -/
def rowMatches {α : Type} (t : GeoArrowType) (g : Geometry α) : Bool :=
  match t.kind with
  | .geometry => true
  | .wkb _ => true
  | .wkt _ => true
  | .box => false
  | k => g.kind == k && t.dim == some g.dim

/-- Read the next array from a WKB reader: parse the first chunk, then
check every row against the requested type. -/
def readNextWkb (r : GeoArrayReader (List Nat)) : Except String (GeoArray Nat) :=
  match r.chunks with
  | [] => .error "stream exhausted"
  | chunk :: _ =>
    match fromWkbArr chunk with
    | none => .error "MalformedWkb"
    | some rows =>
      if rows.all (rowMatches r.typ) then .ok ⟨r.typ, rows⟩
      else .error "Incorrect geometry type for operation"

/-- Read the next array from a WKT reader. -/
def readNextWkt (r : GeoArrayReader (List Char)) :
    Except String (GeoArray String) :=
  match r.chunks with
  | [] => .error "stream exhausted"
  | chunk :: _ =>
    match fromWktArr chunk with
    | none => .error "MalformedWkt"
    | some rows =>
      if rows.all (rowMatches r.typ) then .ok ⟨r.typ, rows⟩
      else .error "Incorrect geometry type for operation"

/-- Claim C4: from_wkb/from_wkt on chunked input with a mismatched
concrete target type succeeds immediately, returning a reader of the
requested type; the incompatible-geometry-type error is raised only when
an array is read from the reader. -/
theorem from_stream_lazy_typed (target : GeoArrowType)
    (bchunk : List (List Nat)) (bmore : List (List (List Nat)))
    (tchunk : List (List Char)) (tmore : List (List (List Char)))
    (xs : List (Geometry Nat)) (ys : List (Geometry String))
    (hb : fromWkbArr bchunk = some xs)
    (ht : fromWktArr tchunk = some ys)
    (hmb : ∃ g ∈ xs, rowMatches target g = false)
    (hmt : ∃ g ∈ ys, rowMatches target g = false) :
    (fromWkbChunked (bchunk :: bmore) target).typ = target ∧
    readNextWkb (fromWkbChunked (bchunk :: bmore) target) =
      .error "Incorrect geometry type for operation" ∧
    (fromWktChunked (tchunk :: tmore) target).typ = target ∧
    readNextWkt (fromWktChunked (tchunk :: tmore) target) =
      .error "Incorrect geometry type for operation" := by
  obtain ⟨g0, hg0, hf0⟩ := hmb
  obtain ⟨g1, hg1, hf1⟩ := hmt
  have hall0 : xs.all (rowMatches target) = false := by
    rw [List.all_eq_false]
    exact ⟨g0, hg0, by simp [hf0]⟩
  have hall1 : ys.all (rowMatches target) = false := by
    rw [List.all_eq_false]
    exact ⟨g1, hg1, by simp [hf1]⟩
  refine ⟨rfl, ?_, rfl, ?_⟩
  · simp [readNextWkb, fromWkbChunked, hb, hall0]
  · simp [readNextWkt, fromWktChunked, ht, hall1]

/-- Witness for C4 at one multipolygon row against the point XY target,
through both codecs. -/
theorem from_stream_lazy_typed_witness :
    (fromWkbArr (toWkbArr
        [Geometry.multipolygon .xy [[[[0, 0], [1, 0], [1, 1], [0, 0]]]]]) =
      some [Geometry.multipolygon .xy [[[[0, 0], [1, 0], [1, 1], [0, 0]]]]] ∧
     fromWktArr ["MULTIPOLYGON (((0 0, 1 0, 1 1, 0 0)))".data] =
      some [Geometry.multipolygon .xy
        [[[["0", "0"], ["1", "0"], ["1", "1"], ["0", "0"]]]]]) ∧
    readNextWkb (fromWkbChunked
        (toWkbArr [Geometry.multipolygon .xy
          [[[[0, 0], [1, 0], [1, 1], [0, 0]]]]] :: [])
        (pointT .xy .interleaved none none)) =
      .error "Incorrect geometry type for operation" ∧
    readNextWkt (fromWktChunked
        (["MULTIPOLYGON (((0 0, 1 0, 1 1, 0 0)))".data] :: [])
        (pointT .xy .interleaved none none)) =
      .error "Incorrect geometry type for operation" :=
  ⟨⟨rfl, rfl⟩,
    (from_stream_lazy_typed (pointT .xy .interleaved none none)
      (toWkbArr [Geometry.multipolygon .xy
        [[[[0, 0], [1, 0], [1, 1], [0, 0]]]]]) []
      ["MULTIPOLYGON (((0 0, 1 0, 1 1, 0 0)))".data] []
      [Geometry.multipolygon .xy [[[[0, 0], [1, 0], [1, 1], [0, 0]]]]]
      [Geometry.multipolygon .xy
        [[[["0", "0"], ["1", "0"], ["1", "1"], ["0", "0"]]]]]
      rfl rfl (by decide) (by decide)).2.1,
    (from_stream_lazy_typed (pointT .xy .interleaved none none)
      (toWkbArr [Geometry.multipolygon .xy
        [[[[0, 0], [1, 0], [1, 1], [0, 0]]]]]) []
      ["MULTIPOLYGON (((0 0, 1 0, 1 1, 0 0)))".data] []
      [Geometry.multipolygon .xy [[[[0, 0], [1, 0], [1, 1], [0, 0]]]]]
      [Geometry.multipolygon .xy
        [[[["0", "0"], ["1", "0"], ["1", "1"], ["0", "0"]]]]]
      rfl rfl (by decide) (by decide)).2.2.2⟩

end GeoArrow
